import Mathlib

/-!
A shallow embedding of the core of mage-svc (`mage-svc.go`): the pid-file
identity store (`getPIDFile`), the liveness resolver (`getProcessByPID`,
`getProcess`), the readiness wait loop (`check` / `checkLoop`), and the
lifecycle operations (`start`, `stop`, `status`).

Modelling conventions:
* Machine integers (pids, timestamps in seconds, uptime in seconds) are `Int`;
  the Go code compares `time.Since(start).Seconds() > float64(sys.Uptime)`,
  which we model as the exact comparison `now - start > uptime`.
* The outside world is a `World`: the observable state of the pid file, a
  timeline `alive : Nat → Int → Bool` telling whether delivering signal 0 to a
  pid would succeed at a given poll round, the cached `unix.Sysinfo` uptime
  result (`none` models a failing `getSysinfo`; the `sync.Once` cache means it
  is queried once and reused for the life of the run, so it is a single field),
  and the current wall-clock time `now`.
* Readiness probes (`Config.checks`) are functions of the poll round returning
  success, `ErrNotReady`, or a hard error; this models the time-varying
  outcomes of the user-supplied `func(ctx) error` checks.
* `os.Process` handles are `Handle`s.  On Unix `(*os.Process).Release` always
  returns nil and poisons the handle: any later `Signal`/`Kill` on it fails
  with "os: process already released" (os package documentation and source).
  `os.FindProcess` never fails on Unix (noted in the Go code's own comment).
* A `Ctx` models a `context.Context` by the round at which `ctx.Err()` starts
  returning a cancellation error (`none` = never cancelled).
* Each operation additionally returns a trace of externally visible events
  (`Ev`) so that ordering and frame properties can be stated.
* The wait loop takes fuel; a `none` result means the poll loop was still
  running after `fuel` rounds (the Go loop has no bound of its own).
-/

namespace Svc

/-- Outcome of one evaluation of a readiness probe: success, the distinguished
soft failure `ErrNotReady`, or a hard error carrying its message. -/
inductive ProbeRes
  | ok
  | notReady
  | hardErr (msg : String)
deriving DecidableEq, Repr

/-- A readiness probe, as a function of the poll round it is evaluated in. -/
abbrev Probe := Nat → ProbeRes

/-- Errors returned by the lifecycle operations, mirroring the error values
produced in `mage-svc.go`. -/
inductive Err
  | canceled
  | exitedBeforeChecks
  | exitedBeforeSatisfied (pid : Int)
  | probeFailed (msg : String)
  | launchFailed
  | writeFailed
  | killFailed
deriving DecidableEq, Repr

/-- The observable state of the pid file, as seen by `config.getPIDFile`:
`os.Open` may fail (file `missing` or otherwise `unopenable`), `file.Stat` may
fail (`unstatable`), `ioutil.ReadAll` may fail after a successful stat
(`unreadable`, which already observed the modification time), or the read may
succeed with some `content` and its modification time. -/
inductive FileView
  | missing
  | unopenable
  | unstatable
  | unreadable (mtime : Int)
  | content (mtime : Int) (data : String)
deriving DecidableEq, Repr

/-- The service configuration relevant to the modelled claims: the name and
the ordered readiness probe set.  The pid-file path is abstracted away: the
`World` holds the state of the one pid file the configuration designates. -/
structure Config where
  name : String
  checks : List Probe

/-- The state of the platform outside the program. -/
structure World where
  /-- Observable state of the pid file. -/
  file : FileView
  /-- Whether delivering signal 0 to a pid succeeds at a given poll round. -/
  alive : Nat → Int → Bool
  /-- Cached `unix.Sysinfo` uptime in seconds; `none` models a failing call. -/
  uptime : Option Int
  /-- Current wall-clock time in seconds. -/
  now : Int

/-- An `os.Process` handle: the pid it designates and whether `Release` has
poisoned it. -/
structure Handle where
  pid : Int
  released : Bool
deriving DecidableEq, Repr

/-- A `context.Context`, modelled by the first round at which `ctx.Err()`
returns a cancellation error. -/
structure Ctx where
  cancelAt : Option Nat

/-- Whether `ctx.Err()` returns an error at the given poll round. -/
def Ctx.cancelled (ctx : Ctx) (round : Nat) : Bool :=
  match ctx.cancelAt with
  | none => false
  | some c => c ≤ round

/-- Value of a digit string, `none` if any character is not a decimal digit. -/
def digitsVal (cs : List Char) : Option Int :=
  cs.foldl
    (fun acc c =>
      match acc with
      | none => none
      | some n => if c.isDigit then some (n * 10 + (c.toNat - 48 : Int)) else none)
    (some 0)

/-- Model of `strconv.Atoi`: an optional sign followed by at least one decimal
digit; anything else is an error (`none`).  (Go additionally errors on values
outside the int range; no claim depends on that corner, and the pids the
program itself writes are small.) -/
def parseAtoi (s : String) : Option Int :=
  match s.toList with
  | [] => none
  | '+' :: rest => if rest = [] then none else digitsVal rest
  | '-' :: rest => if rest = [] then none else (digitsVal rest).map (fun n => -n)
  | cs => digitsVal cs

/-- Embeds `config.getPIDFile`.  Open failure and stat failure return before
`mtime` is assigned, yielding `(0, 0)`; a read failure or an `Atoi` failure
happens after `mtime = info.ModTime()`, so those paths return pid 0 together
with the file's real modification time.  No error is ever propagated. -/
def getPIDFile (f : FileView) : Int × Int :=
  match f with
  | .missing => (0, 0)
  | .unopenable => (0, 0)
  | .unstatable => (0, 0)
  | .unreadable mtime => (0, mtime)
  | .content mtime data =>
    match parseAtoi data with
    | none => (0, mtime)
    | some pid => (pid, mtime)

/-- Externally visible events emitted by the operations. -/
inductive Ev
  /-- Signal 0 delivered by the liveness resolver (`ps.Signal(0)` in
  `getProcessByPID`). -/
  | signal0 (pid : Int)
  /-- Evaluation of probe `i` during poll round `round`. -/
  | probeEval (i : Nat) (round : Nat)
  /-- The `time.Sleep(100ms)` ending poll round `round`. -/
  | sleep (round : Nat)
  /-- The wait loop's post-sleep `ps.Signal(0)` aliveness re-verification. -/
  | recheck (pid : Int)
  /-- `cmd.Start()` launched a process with this pid. -/
  | launch (pid : Int)
  /-- `ioutil.WriteFile` wrote this pid to the pid file. -/
  | writeFile (pid : Int)
  /-- `os.RemoveAll` deleted the pid file. -/
  | removeFile
  /-- SIGKILL delivered (or attempted) to this pid. -/
  | sigkill (pid : Int)
deriving DecidableEq, Repr

/-- The reboot test of `config.getProcessByPID`: it fires only when
`getSysinfo` succeeded, modelling `err == nil && time.Since(start).Seconds() >
float64(sys.Uptime)`. -/
def rebootedSince (w : World) (start : Int) : Bool :=
  match w.uptime with
  | some up => decide (w.now - start > up)
  | none => false

/-- Embeds the body of `config.getProcessByPID` proper: when the reboot test
trips, resolve to `none` without a signal; otherwise `os.FindProcess`
(infallible on Unix) yields a fresh handle and signal 0 is delivered to test
existence; any delivery error resolves to `none`. -/
def getProcessByPID (w : World) (pid start : Int) : Option Handle × List Ev :=
  if rebootedSince w start then (none, [])
  else if w.alive 0 pid then (some ⟨pid, false⟩, [.signal0 pid])
  else (none, [.signal0 pid])

/-- Embeds `config.getProcess`: read the pid file, refuse pids below 2, then
resolve by pid and recorded time. -/
def getProcess (w : World) : Option Handle × List Ev :=
  if (getPIDFile w.file).1 < 2 then (none, [])
  else getProcessByPID w (getPIDFile w.file).1 (getPIDFile w.file).2

/-- Embeds `config.running`. -/
def running (w : World) : Bool :=
  (getProcess w).1.isSome

/-- Embeds the inner `for i, check := range cfg.checks` pass of `config.check`
over the zipped (probe, satisfied) state, threading the `unready` counter.
`i` is the absolute index of the head probe.  A satisfied probe is skipped; an
unsatisfied probe is evaluated: success marks it satisfied and decrements
`unready`, `ErrNotReady` is tolerated, and a hard error returns immediately
(later probes are not evaluated in that round). -/
def runProbes (round : Nat) :
    List (Probe × Bool) → Nat → Nat → Except String (List (Probe × Bool) × Nat) × List Ev
  | [], _, unready => (.ok ([], unready), [])
  | (c, sat) :: rest, i, unready =>
    if sat then
      match runProbes round rest (i + 1) unready with
      | (.ok (rest', u), evs) => (.ok ((c, sat) :: rest', u), evs)
      | (.error e, evs) => (.error e, evs)
    else
      match c round with
      | .ok =>
        match runProbes round rest (i + 1) (unready - 1) with
        | (.ok (rest', u), evs) => (.ok ((c, true) :: rest', u), .probeEval i round :: evs)
        | (.error e, evs) => (.error e, .probeEval i round :: evs)
      | .notReady =>
        match runProbes round rest (i + 1) unready with
        | (.ok (rest', u), evs) => (.ok ((c, false) :: rest', u), .probeEval i round :: evs)
        | (.error e, evs) => (.error e, .probeEval i round :: evs)
      | .hardErr e => (.error e, [.probeEval i round])

/-- Embeds the `for` loop of `config.check`.  Each round: check `ctx.Err()`;
run the unsatisfied probes (a hard error aborts with it); return success when
`unready < 1`; otherwise `time.Sleep(100ms)` and then re-verify the target is
alive with `ps.Signal(0)` (sampled at the next round, after the sleep),
aborting with the "process ... exited before checks were satisfied" error that
names the pid. -/
def checkLoop (ctx : Ctx) (alive : Nat → Int → Bool) (pid : Int) :
    List (Probe × Bool) → Nat → Nat → Nat → Option (Except Err Unit × List Ev)
  | _, _, _, 0 => none
  | st, unready, round, fuel + 1 =>
    if ctx.cancelled round then some (.error .canceled, [])
    else
      match runProbes round st 0 unready with
      | (.error e, evs) => some (.error (.probeFailed e), evs)
      | (.ok (st', unready'), evs) =>
        if unready' < 1 then some (.ok (), evs)
        else if alive (round + 1) pid then
          match checkLoop ctx alive pid st' unready' (round + 1) fuel with
          | some (res, evs') => some (res, evs ++ [.sleep round, .recheck pid] ++ evs')
          | none => none
        else
          some (.error (.exitedBeforeSatisfied pid), evs ++ [.sleep round, .recheck pid])

/-- Embeds `config.check`: resolve the process (failing with "process exited
before starting checks" when it does not resolve), then run the wait loop with
all probes unsatisfied and `unready = len(cfg.checks)`. -/
def check (cfg : Config) (ctx : Ctx) (w : World) (fuel : Nat) :
    Option (Except Err Unit × List Ev) :=
  match getProcess w with
  | (none, evs) => some (.error .exitedBeforeChecks, evs)
  | (some h, evs) =>
    match checkLoop ctx w.alive h.pid (cfg.checks.map (fun c => (c, false)))
        cfg.checks.length 0 fuel with
    | some (res, evs') => some (res, evs ++ evs')
    | none => none

/-- Embeds `config.kill`: `ps.Kill()` then `ps.Wait()`.  `Kill` on a released
handle fails with "os: process already released" before any syscall; `Kill` on
a dead pid attempts the syscall and fails with ESRCH; otherwise SIGKILL is
delivered, the process dies from this point of the timeline on, and the wait
on the freshly killed child succeeds. -/
def kill (w : World) (h : Handle) : World × Except Err Unit × List Ev :=
  if h.released then (w, .error .killFailed, [])
  else if w.alive 0 h.pid then
    ({ w with alive := fun r p => if p = h.pid then false else w.alive r p },
      .ok (), [.sigkill h.pid])
  else (w, .error .killFailed, [.sigkill h.pid])

/-- The launch path of `config.start`, taken when no process resolves (split
from `start` only to name the branch; `start` composes the two exactly as the
Go control flow does).  `evsR` is the trace of the failed entry resolution.
On a launch error (`none`) the error is returned.  On a pid-file write
failure the still-unreleased handle is killed and the write error returned.
Otherwise the pid is persisted, `cmd.Process.Release()` poisons the handle
(on Unix it always returns nil), and `cfg.check` runs; on its failure
`cfg.kill(cmd.Process)` is attempted on the released handle with its result
discarded, and the check error is returned. -/
def startLaunch (cfg : Config) (ctx : Ctx) (w : World) (evsR : List Ev) :
    Option Int → Bool → Nat → Option (World × Except Err Unit × List Ev)
  | none, _, _ => some (w, .error .launchFailed, evsR)
  | some pid, false, _ =>
    match kill w ⟨pid, false⟩ with
    | (w2, _, evs2) => some (w2, .error .writeFailed, evsR ++ [Ev.launch pid] ++ evs2)
  | some pid, true, fuel =>
    match check cfg ctx { w with file := .content w.now (toString pid) } fuel with
    | some (.ok (), evs) =>
      some ({ w with file := .content w.now (toString pid) }, .ok (),
        evsR ++ [Ev.launch pid, Ev.writeFile pid] ++ evs)
    | some (.error e, evs) =>
      match kill { w with file := .content w.now (toString pid) } ⟨pid, true⟩ with
      | (w2, _, evs2) =>
        some (w2, .error e, evsR ++ [Ev.launch pid, Ev.writeFile pid] ++ evs ++ evs2)
    | none => none

/-- Embeds `config.start`.  `launchPid` models the outcome of `cmd.Start()`
(`none` is a launch error, `some pid` the pid the OS assigned); `writeOk`
models whether `ioutil.WriteFile` succeeds.  If a process already resolves,
only `cfg.check` runs (no launch, no write); otherwise the launch path
`startLaunch` runs. -/
def start (cfg : Config) (ctx : Ctx) (w : World) (launchPid : Option Int)
    (writeOk : Bool) (fuel : Nat) : Option (World × Except Err Unit × List Ev) :=
  match getProcess w with
  | (some _, evsR) =>
    match check cfg ctx w fuel with
    | some (res, evs) => some (w, res, evsR ++ evs)
    | none => none
  | (none, evsR) => startLaunch cfg ctx w evsR launchPid writeOk fuel

/-- Embeds `config.stop`: if the identity does not resolve, remove any stale
pid file and succeed; otherwise `ps.Kill()` (failure is returned with the pid
file left in place), then remove the pid file and tolerate a failing
`ps.Wait()`. -/
def stop (w : World) : World × Except Err Unit × List Ev :=
  match getProcess w with
  | (none, evs) => ({ w with file := .missing }, .ok (), evs ++ [.removeFile])
  | (some h, evs) =>
    if w.alive 0 h.pid then
      ({ w with
          alive := fun r p => if p = h.pid then false else w.alive r p,
          file := .missing },
        .ok (), evs ++ [.sigkill h.pid, .removeFile])
    else (w, .error .killFailed, evs ++ [.sigkill h.pid])

/-- The Status snapshot of `config.Status` (times as `Int` seconds). -/
structure Snap where
  name : String
  pid : Int
  started : Int
  running : Bool
  ready : Bool
deriving DecidableEq, Repr

/-- Embeds `config.Status`: read the pid file into the snapshot; return early
when the pid is 0; otherwise resolve liveness directly via
`config.getProcessByPID` (note: without the `pid < 2` guard of
`config.getProcess`); if running, `Ready` is set exactly when `cfg.check(ctx)`
returns nil. -/
def status (cfg : Config) (ctx : Ctx) (w : World) (fuel : Nat) :
    Option (World × Snap × List Ev) :=
  if (getPIDFile w.file).1 = 0 then
    some (w, ⟨cfg.name, (getPIDFile w.file).1, (getPIDFile w.file).2, false, false⟩, [])
  else
    match getProcessByPID w (getPIDFile w.file).1 (getPIDFile w.file).2 with
    | (none, evs) =>
      some (w, ⟨cfg.name, (getPIDFile w.file).1, (getPIDFile w.file).2, false, false⟩, evs)
    | (some _, evs) =>
      match check cfg ctx w fuel with
      | some (.ok (), evs') =>
        some (w, ⟨cfg.name, (getPIDFile w.file).1, (getPIDFile w.file).2, true, true⟩,
          evs ++ evs')
      | some (.error _, evs') =>
        some (w, ⟨cfg.name, (getPIDFile w.file).1, (getPIDFile w.file).2, true, false⟩,
          evs ++ evs')
      | none => none

/-- Repeated `status` calls, threading the returned world. -/
def statusIter (cfg : Config) (ctx : Ctx) (fuel : Nat) : Nat → World → Option World
  | 0, w => some w
  | n + 1, w =>
    match status cfg ctx w fuel with
    | some (w', _, _) => statusIter cfg ctx fuel n w'
    | none => none

/-- Events that only observe the world (reads and zero-signals), as opposed to
launching, killing, or touching the pid file. -/
def Ev.readOnly : Ev → Bool
  | .signal0 _ => true
  | .probeEval _ _ => true
  | .sleep _ => true
  | .recheck _ => true
  | .launch _ => false
  | .writeFile _ => false
  | .removeFile => false
  | .sigkill _ => false

/-- Number of unsatisfied probes in a wait-loop state. -/
def countUnsat (st : List (Probe × Bool)) : Nat :=
  st.countP (fun p => !p.2)

/-- Probe `i` reported success at least once in a trace: some round evaluated
it and its outcome at that round was success. -/
def reportedOk (checks : List Probe) (tr : List Ev) (i : Nat) : Prop :=
  ∃ r c, checks[i]? = some c ∧ Ev.probeEval i r ∈ tr ∧ c r = ProbeRes.ok

/-- Whether `status` would report the service ready (false when the poll loop
did not finish within the fuel). -/
def statusReady (cfg : Config) (ctx : Ctx) (w : World) (fuel : Nat) : Bool :=
  match status cfg ctx w fuel with
  | some (_, snap, _) => snap.ready
  | none => false

/-! Concrete inputs used by the claim-level theorems, counterexamples, and
witnesses below. -/

/-- A configuration with one probe that always fails hard (modelling e.g. a
malformed dial address). -/
def cfgC1 : Config := ⟨"svc", [fun _ => ProbeRes.hardErr "bad address"]⟩

/-- A world with no pid file, where pid 9 stays alive (as the launched
process) and the uptime query reports 1000 seconds of uptime. -/
def wC1 : World := { file := .missing, alive := fun _ p => p == 9, uptime := some 1000, now := 0 }

/-- The world after `start` launched pid 9 into `wC1` and persisted it. -/
def w1C1 : World := { wC1 with file := .content 0 "9" }

/-- A configuration with no probes. -/
def cfgC2 : Config := ⟨"svc", []⟩

/-- A world whose pid file records pid 1 (init) and where every zero-signal
delivery succeeds (as for a root caller). -/
def wC2 : World := { file := .content 0 "1", alive := fun _ _ => true, uptime := some 1000, now := 0 }

/-- A configuration with one probe that is not ready at round 0 and succeeds
from round 1 on. -/
def cfgC3 : Config := ⟨"svc", [fun r => if r = 0 then ProbeRes.notReady else ProbeRes.ok]⟩

/-- A world whose pid file records the live pid 5. -/
def wC3 : World := { file := .content 0 "5", alive := fun _ p => p == 5, uptime := some 1000, now := 0 }

/-- A world whose pid file holds non-numeric content with modification time 7. -/
def wC4 : World := { file := .content 7 "bogus", alive := fun _ _ => true, uptime := some 1000, now := 0 }

/-- A configuration with no probes, for the malformed-pid-file scenario. -/
def cfgC4 : Config := ⟨"svc", []⟩

/-- A probe that is not ready at round 0 and succeeds from round 1 on. -/
def probeC5 : Probe := fun r => if r = 0 then ProbeRes.notReady else ProbeRes.ok

/-- A configuration with the single probe `probeC5`. -/
def cfgC5 : Config := ⟨"svc", [probeC5]⟩

/-- A world whose pid file records the live pid 5. -/
def wC5 : World := { file := .content 0 "5", alive := fun _ p => p == 5, uptime := some 1000, now := 0 }

/-- An aliveness timeline where pid 5 is alive at round 0 and exits before
round 1. -/
def aliveC5 : Nat → Int → Bool := fun r p => p == 5 && r == 0

/-- A configuration with one probe that always succeeds. -/
def cfgC6 : Config := ⟨"svc", [fun _ => ProbeRes.ok]⟩

/-- A world with no pid file where pid 5 stays alive once launched. -/
def wC6 : World := { file := .missing, alive := fun _ p => p == 5, uptime := some 1000, now := 0 }

/-- The world after `start` launched pid 5 into `wC6` and persisted it. -/
def w1C6 : World := { wC6 with file := .content 0 "5" }

/-- A configuration with one probe that always succeeds. -/
def cfgC7 : Config := ⟨"svc", [fun _ => ProbeRes.ok]⟩

/-- A world whose pid file records the live pid 5. -/
def wC7 : World := { file := .content 0 "5", alive := fun _ p => p == 5, uptime := some 1000, now := 0 }

/-- A world whose record is 100 seconds old while the system has only been up
for 5 seconds, and where pid 9 is alive (an unrelated process after reboot). -/
def wC8 : World := { file := .content 0 "9", alive := fun _ _ => true, uptime := some 5, now := 100 }

/-- The probe list of the C9 witness run: one probe, not ready at round 0 and
successful from round 1 on. -/
def checksC9 : List Probe := [fun r => if r = 0 then ProbeRes.notReady else ProbeRes.ok]

/-- The wait-loop trace of the C9 witness run. -/
def trC9 : List Ev := [Ev.probeEval 0 0, Ev.sleep 0, Ev.recheck 5, Ev.probeEval 0 1]

/-- A world whose record is ancient (far older than any plausible uptime) but
where the uptime query fails and pid 7 happens to be alive. -/
def wC10 : World := { file := .content 0 "7", alive := fun _ _ => true, uptime := none, now := 1000000 }

end Svc


namespace Svc

theorem runProbes_nil (round i u : Nat) : runProbes round [] i u = (.ok ([], u), []) := rfl

theorem runProbes_cons_sat (round : Nat) (c : Probe) (rest : List (Probe × Bool)) (i u : Nat) :
    runProbes round ((c, true) :: rest) i u =
      (match runProbes round rest (i + 1) u with
       | (.ok (rest', u'), evs) => (.ok ((c, true) :: rest', u'), evs)
       | (.error e, evs) => (.error e, evs)) := rfl

theorem runProbes_cons_ok {c : Probe} {round : Nat} (hc : c round = .ok)
    (rest : List (Probe × Bool)) (i u : Nat) :
    runProbes round ((c, false) :: rest) i u =
      (match runProbes round rest (i + 1) (u - 1) with
       | (.ok (rest', u'), evs) => (.ok ((c, true) :: rest', u'), .probeEval i round :: evs)
       | (.error e, evs) => (.error e, .probeEval i round :: evs)) := by
  simp only [runProbes, Bool.false_eq_true, if_false, hc]

theorem runProbes_cons_notReady {c : Probe} {round : Nat} (hc : c round = .notReady)
    (rest : List (Probe × Bool)) (i u : Nat) :
    runProbes round ((c, false) :: rest) i u =
      (match runProbes round rest (i + 1) u with
       | (.ok (rest', u'), evs) => (.ok ((c, false) :: rest', u'), .probeEval i round :: evs)
       | (.error e, evs) => (.error e, .probeEval i round :: evs)) := by
  simp only [runProbes, Bool.false_eq_true, if_false, hc]

theorem runProbes_cons_hardErr {c : Probe} {round : Nat} {e : String}
    (hc : c round = .hardErr e) (rest : List (Probe × Bool)) (i u : Nat) :
    runProbes round ((c, false) :: rest) i u = (.error e, [.probeEval i round]) := by
  simp only [runProbes, Bool.false_eq_true, if_false, hc]

end Svc

namespace Svc

/-- A successful probe pass maps each probe state to "satisfied before, or
succeeded this round". -/
theorem runProbes_map (round : Nat) : ∀ (st : List (Probe × Bool)) (i u : Nat)
    {st' : List (Probe × Bool)} {u' : Nat} {evs : List Ev},
    runProbes round st i u = (.ok (st', u'), evs) →
    st' = st.map (fun p => (p.1, p.2 || decide (p.1 round = ProbeRes.ok))) := by
  intro st
  induction st with
  | nil =>
    intro i u st' u' evs h
    rw [runProbes_nil] at h
    simp only [Prod.mk.injEq, Except.ok.injEq] at h
    simp [← h.1.1]
  | cons hd rest ih =>
    intro i u st' u' evs h
    obtain ⟨c, sat⟩ := hd
    cases sat with
    | true =>
      rw [runProbes_cons_sat] at h
      rcases hrec : runProbes round rest (i + 1) u with ⟨res, evs0⟩
      rw [hrec] at h
      cases res with
      | ok p =>
        obtain ⟨rest', u0⟩ := p
        simp only [Prod.mk.injEq, Except.ok.injEq] at h
        obtain ⟨⟨h1, _⟩, _⟩ := h
        subst h1
        simp [ih (i + 1) u hrec]
      | error e => simp at h
    | false =>
      cases hcr : c round with
      | ok =>
        rw [runProbes_cons_ok hcr] at h
        rcases hrec : runProbes round rest (i + 1) (u - 1) with ⟨res, evs0⟩
        rw [hrec] at h
        cases res with
        | ok p =>
          obtain ⟨rest', u0⟩ := p
          simp only [Prod.mk.injEq, Except.ok.injEq] at h
          obtain ⟨⟨h1, _⟩, _⟩ := h
          subst h1
          simp [ih (i + 1) (u - 1) hrec, hcr]
        | error e => simp at h
      | notReady =>
        rw [runProbes_cons_notReady hcr] at h
        rcases hrec : runProbes round rest (i + 1) u with ⟨res, evs0⟩
        rw [hrec] at h
        cases res with
        | ok p =>
          obtain ⟨rest', u0⟩ := p
          simp only [Prod.mk.injEq, Except.ok.injEq] at h
          obtain ⟨⟨h1, _⟩, _⟩ := h
          subst h1
          simp [ih (i + 1) u hrec, hcr]
        | error e => simp at h
      | hardErr msg =>
        rw [runProbes_cons_hardErr hcr] at h
        simp at h

end Svc

namespace Svc

/-- Every event emitted by a probe pass is the evaluation, at this round, of a
probe that was unsatisfied on entry to the pass. -/
theorem runProbes_evs_mem (round : Nat) : ∀ (st : List (Probe × Bool)) (i u : Nat),
    ∀ e ∈ (runProbes round st i u).2,
      ∃ k c, st[k]? = some (c, false) ∧ e = Ev.probeEval (i + k) round := by
  intro st
  induction st with
  | nil => intro i u e he; rw [runProbes_nil] at he; simp at he
  | cons hd rest ih =>
    intro i u e he
    obtain ⟨c, sat⟩ := hd
    cases sat with
    | true =>
      rw [runProbes_cons_sat] at he
      rcases hrec : runProbes round rest (i + 1) u with ⟨res, evs0⟩
      rw [hrec] at he
      have he0 : e ∈ evs0 := by cases res with
        | ok p => obtain ⟨rest', u0⟩ := p; exact he
        | error e' => exact he
      obtain ⟨k, c', hk, hek⟩ := ih (i + 1) u e (by rw [hrec]; exact he0)
      exact ⟨k + 1, c', by simpa using hk, by rw [hek]; congr 1; omega⟩
    | false =>
      cases hcr : c round with
      | ok =>
        rw [runProbes_cons_ok hcr] at he
        rcases hrec : runProbes round rest (i + 1) (u - 1) with ⟨res, evs0⟩
        rw [hrec] at he
        have he0 : e ∈ Ev.probeEval i round :: evs0 := by cases res with
          | ok p => obtain ⟨rest', u0⟩ := p; exact he
          | error e' => exact he
        rcases List.mem_cons.mp he0 with he0 | he0
        · subst he0; exact ⟨0, c, by simp, by simp⟩
        · obtain ⟨k, c', hk, hek⟩ := ih (i + 1) (u - 1) e (by rw [hrec]; exact he0)
          exact ⟨k + 1, c', by simpa using hk, by rw [hek]; congr 1; omega⟩
      | notReady =>
        rw [runProbes_cons_notReady hcr] at he
        rcases hrec : runProbes round rest (i + 1) u with ⟨res, evs0⟩
        rw [hrec] at he
        have he0 : e ∈ Ev.probeEval i round :: evs0 := by cases res with
          | ok p => obtain ⟨rest', u0⟩ := p; exact he
          | error e' => exact he
        rcases List.mem_cons.mp he0 with he0 | he0
        · subst he0; exact ⟨0, c, by simp, by simp⟩
        · obtain ⟨k, c', hk, hek⟩ := ih (i + 1) u e (by rw [hrec]; exact he0)
          exact ⟨k + 1, c', by simpa using hk, by rw [hek]; congr 1; omega⟩
      | hardErr msg =>
        rw [runProbes_cons_hardErr hcr] at he
        have he' : e = Ev.probeEval i round := by simpa using he
        subst he'
        exact ⟨0, c, by simp, by simp⟩

end Svc

namespace Svc

/-- In a successful probe pass, every probe that was unsatisfied on entry was
evaluated this round. -/
theorem runProbes_complete (round : Nat) : ∀ (st : List (Probe × Bool)) (i u : Nat)
    {st' : List (Probe × Bool)} {u' : Nat} {evs : List Ev},
    runProbes round st i u = (.ok (st', u'), evs) →
    ∀ k c, st[k]? = some (c, false) → Ev.probeEval (i + k) round ∈ evs := by
  intro st
  induction st with
  | nil => intro i u st' u' evs h k c hk; simp at hk
  | cons hd rest ih =>
    intro i u st' u' evs h k c hk
    obtain ⟨c0, sat⟩ := hd
    cases sat with
    | true =>
      rw [runProbes_cons_sat] at h
      rcases hrec : runProbes round rest (i + 1) u with ⟨res, evs0⟩
      rw [hrec] at h
      cases res with
      | ok p =>
        obtain ⟨rest', u0⟩ := p
        simp only [Prod.mk.injEq, Except.ok.injEq] at h
        cases k with
        | zero => simp at hk
        | succ k' =>
          have hk' : rest[k']? = some (c, false) := by simpa using hk
          have := ih (i + 1) u hrec k' c hk'
          rw [← h.2]
          simpa [Nat.add_assoc, Nat.add_comm 1 k'] using this
      | error e => simp at h
    | false =>
      cases hcr : c0 round with
      | ok =>
        rw [runProbes_cons_ok hcr] at h
        rcases hrec : runProbes round rest (i + 1) (u - 1) with ⟨res, evs0⟩
        rw [hrec] at h
        cases res with
        | ok p =>
          obtain ⟨rest', u0⟩ := p
          simp only [Prod.mk.injEq, Except.ok.injEq] at h
          cases k with
          | zero => rw [← h.2]; simp
          | succ k' =>
            have hk' : rest[k']? = some (c, false) := by simpa using hk
            have := ih (i + 1) (u - 1) hrec k' c hk'
            rw [← h.2]
            refine List.mem_cons_of_mem _ ?_
            simpa [Nat.add_assoc, Nat.add_comm 1 k'] using this
        | error e => simp at h
      | notReady =>
        rw [runProbes_cons_notReady hcr] at h
        rcases hrec : runProbes round rest (i + 1) u with ⟨res, evs0⟩
        rw [hrec] at h
        cases res with
        | ok p =>
          obtain ⟨rest', u0⟩ := p
          simp only [Prod.mk.injEq, Except.ok.injEq] at h
          cases k with
          | zero => rw [← h.2]; simp
          | succ k' =>
            have hk' : rest[k']? = some (c, false) := by simpa using hk
            have := ih (i + 1) u hrec k' c hk'
            rw [← h.2]
            refine List.mem_cons_of_mem _ ?_
            simpa [Nat.add_assoc, Nat.add_comm 1 k'] using this
        | error e => simp at h
      | hardErr msg =>
        rw [runProbes_cons_hardErr hcr] at h
        simp at h

/-- A failing probe pass fails with the hard error of a probe that was
unsatisfied on entry. -/
theorem runProbes_err (round : Nat) : ∀ (st : List (Probe × Bool)) (i u : Nat)
    {e : String} {evs : List Ev},
    runProbes round st i u = (.error e, evs) →
    ∃ (k : Nat) (c : Probe), st[k]? = some (c, false) ∧ c round = ProbeRes.hardErr e := by
  intro st
  induction st with
  | nil => intro i u e evs h; rw [runProbes_nil] at h; simp at h
  | cons hd rest ih =>
    intro i u e evs h
    obtain ⟨c0, sat⟩ := hd
    cases sat with
    | true =>
      rw [runProbes_cons_sat] at h
      rcases hrec : runProbes round rest (i + 1) u with ⟨res, evs0⟩
      rw [hrec] at h
      cases res with
      | ok p => obtain ⟨rest', u0⟩ := p; simp at h
      | error e' =>
        simp only [Prod.mk.injEq, Except.error.injEq] at h
        obtain ⟨k, c, hk, hcr⟩ := ih (i + 1) u (by rw [hrec, h.1])
        exact ⟨k + 1, c, by simpa using hk, hcr⟩
    | false =>
      cases hcr : c0 round with
      | ok =>
        rw [runProbes_cons_ok hcr] at h
        rcases hrec : runProbes round rest (i + 1) (u - 1) with ⟨res, evs0⟩
        rw [hrec] at h
        cases res with
        | ok p => obtain ⟨rest', u0⟩ := p; simp at h
        | error e' =>
          simp only [Prod.mk.injEq, Except.error.injEq] at h
          obtain ⟨k, c, hk, hcr'⟩ := ih (i + 1) (u - 1) (by rw [hrec, h.1])
          exact ⟨k + 1, c, by simpa using hk, hcr'⟩
      | notReady =>
        rw [runProbes_cons_notReady hcr] at h
        rcases hrec : runProbes round rest (i + 1) u with ⟨res, evs0⟩
        rw [hrec] at h
        cases res with
        | ok p => obtain ⟨rest', u0⟩ := p; simp at h
        | error e' =>
          simp only [Prod.mk.injEq, Except.error.injEq] at h
          obtain ⟨k, c, hk, hcr'⟩ := ih (i + 1) u (by rw [hrec, h.1])
          exact ⟨k + 1, c, by simpa using hk, hcr'⟩
      | hardErr msg =>
        rw [runProbes_cons_hardErr hcr] at h
        simp only [Prod.mk.injEq, Except.error.injEq] at h
        exact ⟨0, c0, by simp, by rw [hcr, h.1]⟩

/-- A successful probe pass changes the `unready` counter by exactly the
number of probes it newly satisfied (stated without truncated subtraction). -/
theorem runProbes_count (round : Nat) : ∀ (st : List (Probe × Bool)) (i u : Nat)
    {st' : List (Probe × Bool)} {u' : Nat} {evs : List Ev},
    runProbes round st i u = (.ok (st', u'), evs) → countUnsat st ≤ u →
    u' + countUnsat st = u + countUnsat st' := by
  intro st
  induction st with
  | nil =>
    intro i u st' u' evs h hu
    rw [runProbes_nil] at h
    simp only [Prod.mk.injEq, Except.ok.injEq] at h
    rw [← h.1.1, ← h.1.2]
  | cons hd rest ih =>
    intro i u st' u' evs h hu
    obtain ⟨c0, sat⟩ := hd
    cases sat with
    | true =>
      rw [runProbes_cons_sat] at h
      rcases hrec : runProbes round rest (i + 1) u with ⟨res, evs0⟩
      rw [hrec] at h
      cases res with
      | ok p =>
        obtain ⟨rest', u0⟩ := p
        simp only [Prod.mk.injEq, Except.ok.injEq] at h
        have e1 : countUnsat ((c0, true) :: rest) = countUnsat rest := by
          simp [countUnsat, List.countP_cons]
        have e2 : countUnsat ((c0, true) :: rest') = countUnsat rest' := by
          simp [countUnsat, List.countP_cons]
        have hu' : countUnsat rest ≤ u := by rw [e1] at hu; exact hu
        have hrec' := ih (i + 1) u hrec hu'
        rw [← h.1.1, ← h.1.2, e1, e2]
        exact hrec'
      | error e => simp at h
    | false =>
      cases hcr : c0 round with
      | ok =>
        rw [runProbes_cons_ok hcr] at h
        rcases hrec : runProbes round rest (i + 1) (u - 1) with ⟨res, evs0⟩
        rw [hrec] at h
        cases res with
        | ok p =>
          obtain ⟨rest', u0⟩ := p
          simp only [Prod.mk.injEq, Except.ok.injEq] at h
          have e1 : countUnsat ((c0, false) :: rest) = countUnsat rest + 1 := by
            simp [countUnsat, List.countP_cons]
          have e2 : countUnsat ((c0, true) :: rest') = countUnsat rest' := by
            simp [countUnsat, List.countP_cons]
          have hu' : countUnsat rest + 1 ≤ u := by rw [e1] at hu; exact hu
          have hrec' := ih (i + 1) (u - 1) hrec (by omega)
          rw [← h.1.1, ← h.1.2, e1, e2]
          omega
        | error e => simp at h
      | notReady =>
        rw [runProbes_cons_notReady hcr] at h
        rcases hrec : runProbes round rest (i + 1) u with ⟨res, evs0⟩
        rw [hrec] at h
        cases res with
        | ok p =>
          obtain ⟨rest', u0⟩ := p
          simp only [Prod.mk.injEq, Except.ok.injEq] at h
          have e1 : countUnsat ((c0, false) :: rest) = countUnsat rest + 1 := by
            simp [countUnsat, List.countP_cons]
          have e2 : countUnsat ((c0, false) :: rest') = countUnsat rest' + 1 := by
            simp [countUnsat, List.countP_cons]
          have hu' : countUnsat rest + 1 ≤ u := by rw [e1] at hu; exact hu
          have hrec' := ih (i + 1) u hrec (by omega)
          rw [← h.1.1, ← h.1.2, e1, e2]
          omega
        | error e => simp at h
      | hardErr msg =>
        rw [runProbes_cons_hardErr hcr] at h
        simp at h

end Svc

namespace Svc

theorem checkLoop_cancel {ctx : Ctx} {round : Nat} (hc : ctx.cancelled round = true)
    (alive : Nat → Int → Bool) (pid : Int) (st : List (Probe × Bool)) (u fuel : Nat) :
    checkLoop ctx alive pid st u round (fuel + 1) = some (.error .canceled, []) := by
  simp only [checkLoop, hc, if_true]

theorem checkLoop_err {ctx : Ctx} {round : Nat} {st : List (Probe × Bool)} {u : Nat}
    {e : String} {evs : List Ev} (hc : ctx.cancelled round = false)
    (hrp : runProbes round st 0 u = (.error e, evs))
    (alive : Nat → Int → Bool) (pid : Int) (fuel : Nat) :
    checkLoop ctx alive pid st u round (fuel + 1) = some (.error (.probeFailed e), evs) := by
  simp only [checkLoop, hc, Bool.false_eq_true, if_false, hrp]

theorem checkLoop_done {ctx : Ctx} {round : Nat} {st st' : List (Probe × Bool)} {u u' : Nat}
    {evs : List Ev} (hc : ctx.cancelled round = false)
    (hrp : runProbes round st 0 u = (.ok (st', u'), evs)) (hu : u' < 1)
    (alive : Nat → Int → Bool) (pid : Int) (fuel : Nat) :
    checkLoop ctx alive pid st u round (fuel + 1) = some (.ok (), evs) := by
  simp only [checkLoop, hc, Bool.false_eq_true, if_false, hrp, if_pos hu]

theorem checkLoop_dead {ctx : Ctx} {round : Nat} {st st' : List (Probe × Bool)} {u u' : Nat}
    {evs : List Ev} {alive : Nat → Int → Bool} {pid : Int}
    (hc : ctx.cancelled round = false)
    (hrp : runProbes round st 0 u = (.ok (st', u'), evs)) (hu : ¬ u' < 1)
    (ha : alive (round + 1) pid = false) (fuel : Nat) :
    checkLoop ctx alive pid st u round (fuel + 1)
      = some (.error (.exitedBeforeSatisfied pid), evs ++ [.sleep round, .recheck pid]) := by
  simp only [checkLoop, hc, Bool.false_eq_true, if_false, hrp, if_neg hu, ha]

theorem checkLoop_recur {ctx : Ctx} {round : Nat} {st st' : List (Probe × Bool)} {u u' : Nat}
    {evs : List Ev} {alive : Nat → Int → Bool} {pid : Int}
    (hc : ctx.cancelled round = false)
    (hrp : runProbes round st 0 u = (.ok (st', u'), evs)) (hu : ¬ u' < 1)
    (ha : alive (round + 1) pid = true) (fuel : Nat) :
    checkLoop ctx alive pid st u round (fuel + 1)
      = (match checkLoop ctx alive pid st' u' (round + 1) fuel with
         | some (res, evs') => some (res, evs ++ [.sleep round, .recheck pid] ++ evs')
         | none => none) := by
  simp only [checkLoop, hc, Bool.false_eq_true, if_false, hrp, if_neg hu, ha, if_true]

end Svc

namespace Svc

/-- Probe evaluations in a wait-loop trace happen at the entry round or
later. -/
theorem checkLoop_evs_round_ge (ctx : Ctx) (alive : Nat → Int → Bool) (pid : Int) :
    ∀ (fuel : Nat) (st : List (Probe × Bool)) (u round : Nat) {res : Except Err Unit}
      {tr : List Ev}, checkLoop ctx alive pid st u round fuel = some (res, tr) →
    ∀ j r, Ev.probeEval j r ∈ tr → round ≤ r := by
  intro fuel
  induction fuel with
  | zero => intro st u round res tr h; simp [checkLoop] at h
  | succ fuel ih =>
    intro st u round res tr h j r hj
    cases hc : ctx.cancelled round with
    | true =>
      rw [checkLoop_cancel hc] at h
      obtain ⟨-, h2⟩ : (Except.error Err.canceled : Except Err Unit) = res ∧ ([] : List Ev) = tr := by
        simpa using h
      rw [← h2] at hj
      simp at hj
    | false =>
      rcases hrp : runProbes round st 0 u with ⟨rres, evs⟩
      cases rres with
      | error e =>
        rw [checkLoop_err hc hrp] at h
        obtain ⟨-, h2⟩ : (Except.error (Err.probeFailed e) : Except Err Unit) = res ∧ evs = tr := by
          simpa using h
        rw [← h2] at hj
        obtain ⟨k, c, -, hek⟩ := runProbes_evs_mem round st 0 u _ (by rw [hrp]; exact hj)
        obtain ⟨-, h4⟩ := Ev.probeEval.inj hek
        omega
      | ok p =>
        obtain ⟨st', u'⟩ := p
        by_cases hu : u' < 1
        · rw [checkLoop_done hc hrp hu] at h
          obtain ⟨-, h2⟩ : (Except.ok () : Except Err Unit) = res ∧ evs = tr := by simpa using h
          rw [← h2] at hj
          obtain ⟨k, c, -, hek⟩ := runProbes_evs_mem round st 0 u _ (by rw [hrp]; exact hj)
          obtain ⟨-, h4⟩ := Ev.probeEval.inj hek
          omega
        · cases ha : alive (round + 1) pid with
          | false =>
            rw [checkLoop_dead hc hrp hu ha] at h
            obtain ⟨-, h2⟩ : (Except.error (Err.exitedBeforeSatisfied pid) : Except Err Unit) = res
                ∧ evs ++ [Ev.sleep round, Ev.recheck pid] = tr := by simpa using h
            rw [← h2] at hj
            rcases List.mem_append.mp hj with hj | hj
            · obtain ⟨k, c, -, hek⟩ := runProbes_evs_mem round st 0 u _ (by rw [hrp]; exact hj)
              obtain ⟨-, h4⟩ := Ev.probeEval.inj hek
              omega
            · simp at hj
          | true =>
            rw [checkLoop_recur hc hrp hu ha] at h
            rcases hrec : checkLoop ctx alive pid st' u' (round + 1) fuel with - | ⟨res', evs'⟩
            · rw [hrec] at h; simp at h
            · rw [hrec] at h
              obtain ⟨-, h2⟩ : res' = res
                  ∧ evs ++ [Ev.sleep round, Ev.recheck pid] ++ evs' = tr := by simpa using h
              rw [← h2] at hj
              rcases List.mem_append.mp hj with hj | hj
              · rcases List.mem_append.mp hj with hj | hj
                · obtain ⟨k, c, -, hek⟩ := runProbes_evs_mem round st 0 u _ (by rw [hrp]; exact hj)
                  obtain ⟨-, h4⟩ := Ev.probeEval.inj hek
                  omega
                · simp at hj
              · have := ih st' u' (round + 1) hrec j r hj
                omega

end Svc

namespace Svc

/-- Every event of a wait-loop trace is read-only (probe evaluations, sleeps,
and zero-signal aliveness rechecks). -/
theorem checkLoop_evs_readOnly (ctx : Ctx) (alive : Nat → Int → Bool) (pid : Int) :
    ∀ (fuel : Nat) (st : List (Probe × Bool)) (u round : Nat) {res : Except Err Unit}
      {tr : List Ev}, checkLoop ctx alive pid st u round fuel = some (res, tr) →
    ∀ e ∈ tr, e.readOnly = true := by
  intro fuel
  induction fuel with
  | zero => intro st u round res tr h; simp [checkLoop] at h
  | succ fuel ih =>
    intro st u round res tr h e he
    have evsRO : ∀ (u0 : Nat) (r0 : Except String (List (Probe × Bool) × Nat)) (evs0 : List Ev),
        runProbes round st 0 u0 = (r0, evs0) → ∀ e0 ∈ evs0, Ev.readOnly e0 = true := by
      intro u0 r0 evs0 hrp0 e0 he0
      obtain ⟨k, c, -, hek⟩ := runProbes_evs_mem round st 0 u0 e0 (by rw [hrp0]; exact he0)
      rw [hek]; rfl
    cases hc : ctx.cancelled round with
    | true =>
      rw [checkLoop_cancel hc] at h
      obtain ⟨-, h2⟩ : (Except.error Err.canceled : Except Err Unit) = res ∧ ([] : List Ev) = tr := by
        simpa using h
      rw [← h2] at he
      simp at he
    | false =>
      rcases hrp : runProbes round st 0 u with ⟨rres, evs⟩
      cases rres with
      | error e' =>
        rw [checkLoop_err hc hrp] at h
        obtain ⟨-, h2⟩ : (Except.error (Err.probeFailed e') : Except Err Unit) = res ∧ evs = tr := by
          simpa using h
        rw [← h2] at he
        exact evsRO u _ evs hrp e he
      | ok p =>
        obtain ⟨st', u'⟩ := p
        by_cases hu : u' < 1
        · rw [checkLoop_done hc hrp hu] at h
          obtain ⟨-, h2⟩ : (Except.ok () : Except Err Unit) = res ∧ evs = tr := by simpa using h
          rw [← h2] at he
          exact evsRO u _ evs hrp e he
        · cases ha : alive (round + 1) pid with
          | false =>
            rw [checkLoop_dead hc hrp hu ha] at h
            obtain ⟨-, h2⟩ : (Except.error (Err.exitedBeforeSatisfied pid) : Except Err Unit) = res
                ∧ evs ++ [Ev.sleep round, Ev.recheck pid] = tr := by simpa using h
            rw [← h2] at he
            rcases List.mem_append.mp he with he | he
            · exact evsRO u _ evs hrp e he
            · rcases List.mem_cons.mp he with he | he
              · rw [he]; rfl
              · have : e = Ev.recheck pid := by simpa using he
                rw [this]; rfl
          | true =>
            rw [checkLoop_recur hc hrp hu ha] at h
            rcases hrec : checkLoop ctx alive pid st' u' (round + 1) fuel with - | ⟨res', evs'⟩
            · rw [hrec] at h; simp at h
            · rw [hrec] at h
              obtain ⟨-, h2⟩ : res' = res
                  ∧ evs ++ [Ev.sleep round, Ev.recheck pid] ++ evs' = tr := by simpa using h
              rw [← h2] at he
              rcases List.mem_append.mp he with he | he
              · rcases List.mem_append.mp he with he | he
                · exact evsRO u _ evs hrp e he
                · rcases List.mem_cons.mp he with he | he
                  · rw [he]; rfl
                  · have : e = Ev.recheck pid := by simpa using he
                    rw [this]; rfl
              · exact ih st' u' (round + 1) hrec e he

/-- A probe that is already satisfied on entry to the wait loop is never
evaluated again. -/
theorem checkLoop_sat_no_eval (ctx : Ctx) (alive : Nat → Int → Bool) (pid : Int) :
    ∀ (fuel : Nat) (st : List (Probe × Bool)) (u round : Nat) {res : Except Err Unit}
      {tr : List Ev}, checkLoop ctx alive pid st u round fuel = some (res, tr) →
    ∀ k (c : Probe), st[k]? = some (c, true) → ∀ r, Ev.probeEval k r ∉ tr := by
  intro fuel
  induction fuel with
  | zero => intro st u round res tr h; simp [checkLoop] at h
  | succ fuel ih =>
    intro st u round res tr h k c hk r hmem
    have evsNo : ∀ (u0 : Nat) (r0 : Except String (List (Probe × Bool) × Nat)) (evs0 : List Ev),
        runProbes round st 0 u0 = (r0, evs0) → Ev.probeEval k r ∉ evs0 := by
      intro u0 r0 evs0 hrp0 hin
      obtain ⟨k', c', hk', hek⟩ := runProbes_evs_mem round st 0 u0 _ (by rw [hrp0]; exact hin)
      obtain ⟨hkk, -⟩ := Ev.probeEval.inj hek
      have hkk' : k' = k := by omega
      rw [hkk'] at hk'
      rw [hk] at hk'
      simp at hk'
    cases hc : ctx.cancelled round with
    | true =>
      rw [checkLoop_cancel hc] at h
      obtain ⟨-, h2⟩ : (Except.error Err.canceled : Except Err Unit) = res ∧ ([] : List Ev) = tr := by
        simpa using h
      rw [← h2] at hmem
      simp at hmem
    | false =>
      rcases hrp : runProbes round st 0 u with ⟨rres, evs⟩
      cases rres with
      | error e' =>
        rw [checkLoop_err hc hrp] at h
        obtain ⟨-, h2⟩ : (Except.error (Err.probeFailed e') : Except Err Unit) = res ∧ evs = tr := by
          simpa using h
        rw [← h2] at hmem
        exact evsNo u _ evs hrp hmem
      | ok p =>
        obtain ⟨st', u'⟩ := p
        by_cases hu : u' < 1
        · rw [checkLoop_done hc hrp hu] at h
          obtain ⟨-, h2⟩ : (Except.ok () : Except Err Unit) = res ∧ evs = tr := by simpa using h
          rw [← h2] at hmem
          exact evsNo u _ evs hrp hmem
        · cases ha : alive (round + 1) pid with
          | false =>
            rw [checkLoop_dead hc hrp hu ha] at h
            obtain ⟨-, h2⟩ : (Except.error (Err.exitedBeforeSatisfied pid) : Except Err Unit) = res
                ∧ evs ++ [Ev.sleep round, Ev.recheck pid] = tr := by simpa using h
            rw [← h2] at hmem
            rcases List.mem_append.mp hmem with hmem | hmem
            · exact evsNo u _ evs hrp hmem
            · simp at hmem
          | true =>
            rw [checkLoop_recur hc hrp hu ha] at h
            rcases hrec : checkLoop ctx alive pid st' u' (round + 1) fuel with - | ⟨res', evs'⟩
            · rw [hrec] at h; simp at h
            · rw [hrec] at h
              obtain ⟨-, h2⟩ : res' = res
                  ∧ evs ++ [Ev.sleep round, Ev.recheck pid] ++ evs' = tr := by simpa using h
              rw [← h2] at hmem
              rcases List.mem_append.mp hmem with hmem | hmem
              · rcases List.mem_append.mp hmem with hmem | hmem
                · exact evsNo u _ evs hrp hmem
                · simp at hmem
              · have hk' : st'[k]? = some (c, true) := by
                  rw [runProbes_map round st 0 u hrp]
                  rw [List.getElem?_map, hk]
                  rfl
                exact ih st' u' (round + 1) hrec k c hk' r hmem

end Svc

namespace Svc

/-- Helper: events of a probe pass entered with absolute index 0 happen at
this round and belong to probes unsatisfied on entry. -/
theorem runProbes_evs0 (round : Nat) (st : List (Probe × Bool)) (u : Nat)
    {r0 : Except String (List (Probe × Bool) × Nat)} {evs0 : List Ev}
    (h : runProbes round st 0 u = (r0, evs0)) :
    ∀ j rr, Ev.probeEval j rr ∈ evs0 → rr = round ∧ ∃ (cc : Probe), st[j]? = some (cc, false) := by
  intro j rr hm
  obtain ⟨k, c, hk, hek⟩ := runProbes_evs_mem round st 0 u _ (by rw [h]; exact hm)
  obtain ⟨h1, h2⟩ := Ev.probeEval.inj hek
  refine ⟨by omega, c, ?_⟩
  have hjk : j = k := by omega
  rw [hjk]
  exact hk

/-- Once the wait loop has evaluated a probe with a successful outcome, it
never evaluates that probe in any later round. -/
theorem checkLoop_no_reeval (ctx : Ctx) (alive : Nat → Int → Bool) (pid : Int) :
    ∀ (fuel : Nat) (st : List (Probe × Bool)) (u round : Nat) {res : Except Err Unit}
      {tr : List Ev}, checkLoop ctx alive pid st u round fuel = some (res, tr) →
    ∀ k (c : Probe) (b : Bool), st[k]? = some (c, b) →
    ∀ r r', r < r' → Ev.probeEval k r ∈ tr → c r = ProbeRes.ok → Ev.probeEval k r' ∉ tr := by
  intro fuel
  induction fuel with
  | zero => intro st u round res tr h; simp [checkLoop] at h
  | succ fuel ih =>
    intro st u round res tr h k c b hk r r' hlt hr hok hr'
    cases hc : ctx.cancelled round with
    | true =>
      rw [checkLoop_cancel hc] at h
      obtain ⟨-, h2⟩ : (Except.error Err.canceled : Except Err Unit) = res ∧ ([] : List Ev) = tr := by
        simpa using h
      rw [← h2] at hr
      simp at hr
    | false =>
      rcases hrp : runProbes round st 0 u with ⟨rres, evs⟩
      have evsInfo := runProbes_evs0 round st u hrp
      have evsCase : ∀ rr, Ev.probeEval k rr ∈ evs → rr = round := by
        intro rr hm
        exact (evsInfo k rr hm).1
      cases rres with
      | error e' =>
        rw [checkLoop_err hc hrp] at h
        obtain ⟨-, h2⟩ : (Except.error (Err.probeFailed e') : Except Err Unit) = res ∧ evs = tr := by
          simpa using h
        rw [← h2] at hr hr'
        have := evsCase r hr
        have := evsCase r' hr'
        omega
      | ok p =>
        obtain ⟨st', u'⟩ := p
        by_cases hu : u' < 1
        · rw [checkLoop_done hc hrp hu] at h
          obtain ⟨-, h2⟩ : (Except.ok () : Except Err Unit) = res ∧ evs = tr := by simpa using h
          rw [← h2] at hr hr'
          have := evsCase r hr
          have := evsCase r' hr'
          omega
        · cases ha : alive (round + 1) pid with
          | false =>
            rw [checkLoop_dead hc hrp hu ha] at h
            obtain ⟨-, h2⟩ : (Except.error (Err.exitedBeforeSatisfied pid) : Except Err Unit) = res
                ∧ evs ++ [Ev.sleep round, Ev.recheck pid] = tr := by simpa using h
            rw [← h2] at hr hr'
            have hr2 : Ev.probeEval k r ∈ evs := by
              rcases List.mem_append.mp hr with hm | hm
              · exact hm
              · simp at hm
            have hr2' : Ev.probeEval k r' ∈ evs := by
              rcases List.mem_append.mp hr' with hm | hm
              · exact hm
              · simp at hm
            have := evsCase r hr2
            have := evsCase r' hr2'
            omega
          | true =>
            rw [checkLoop_recur hc hrp hu ha] at h
            rcases hrec : checkLoop ctx alive pid st' u' (round + 1) fuel with - | ⟨res', evs'⟩
            · rw [hrec] at h; simp at h
            · rw [hrec] at h
              obtain ⟨-, h2⟩ : res' = res
                  ∧ evs ++ [Ev.sleep round, Ev.recheck pid] ++ evs' = tr := by simpa using h
              rw [← h2] at hr hr'
              have memCase : ∀ rr, Ev.probeEval k rr ∈ evs ++ [Ev.sleep round, Ev.recheck pid] ++ evs' →
                  Ev.probeEval k rr ∈ evs ∨ Ev.probeEval k rr ∈ evs' := by
                intro rr hm
                rcases List.mem_append.mp hm with hm | hm
                · rcases List.mem_append.mp hm with hm | hm
                  · exact Or.inl hm
                  · simp at hm
                · exact Or.inr hm
              rcases memCase r hr with hrC | hrC
              · have hrnd := evsCase r hrC
                have hok' : c round = ProbeRes.ok := by rw [← hrnd]; exact hok
                have hst' : st'[k]? = some (c, true) := by
                  rw [runProbes_map round st 0 u hrp, List.getElem?_map, hk]
                  simp [hok']
                rcases memCase r' hr' with hrC' | hrC'
                · have := evsCase r' hrC'
                  omega
                · exact checkLoop_sat_no_eval ctx alive pid fuel st' u' (round + 1) hrec k c hst' r' hrC'
              · have hge := checkLoop_evs_round_ge ctx alive pid fuel st' u' (round + 1) hrec k r hrC
                rcases memCase r' hr' with hrC' | hrC'
                · have := evsCase r' hrC'
                  omega
                · obtain ⟨b', hst'⟩ : ∃ b', st'[k]? = some (c, b') := by
                    refine ⟨b || decide (c round = ProbeRes.ok), ?_⟩
                    rw [runProbes_map round st 0 u hrp, List.getElem?_map, hk]
                    rfl
                  exact ih st' u' (round + 1) hrec k c b' hst' r r' hlt hrC hok hrC'

end Svc

namespace Svc

/-- A wait-loop state with a positive unsatisfied count has an unsatisfied
probe. -/
theorem countUnsat_pos_exists : ∀ {st : List (Probe × Bool)}, 1 ≤ countUnsat st →
    ∃ (k : Nat) (c : Probe), st[k]? = some (c, false) := by
  intro st
  induction st with
  | nil => intro h; simp [countUnsat] at h
  | cons hd rest ih =>
    intro h
    obtain ⟨c, sat⟩ := hd
    cases sat with
    | false => exact ⟨0, c, by simp⟩
    | true =>
      have h' : 1 ≤ countUnsat rest := by simpa [countUnsat, List.countP_cons] using h
      obtain ⟨k, c', hk⟩ := ih h'
      exact ⟨k + 1, c', by simpa using hk⟩

/-- In a wait-loop state with no unsatisfied probes, every probe is
satisfied. -/
theorem countUnsat_zero_all_sat : ∀ (st : List (Probe × Bool)), countUnsat st = 0 →
    ∀ (k : Nat) (c : Probe) (b : Bool), st[k]? = some (c, b) → b = true := by
  intro st
  induction st with
  | nil => intro h k c b hk; simp at hk
  | cons hd rest ih =>
    intro h k c b hk
    obtain ⟨c0, sat⟩ := hd
    cases sat with
    | false => simp [countUnsat, List.countP_cons] at h
    | true =>
      have h' : countUnsat rest = 0 := by simpa [countUnsat, List.countP_cons] using h
      cases k with
      | zero =>
        have hk' : c0 = c ∧ true = b := by simpa using hk
        exact hk'.2.symm
      | succ k' => exact ih h' k' c b (by simpa using hk)

/-- When the wait loop returns success, every probe that was unsatisfied on
entry reported success during the run. -/
theorem checkLoop_ok_reported (ctx : Ctx) (alive : Nat → Int → Bool) (pid : Int) :
    ∀ (fuel : Nat) (st : List (Probe × Bool)) (u round : Nat) {tr : List Ev},
    checkLoop ctx alive pid st u round fuel = some (.ok (), tr) → countUnsat st = u →
    ∀ (k : Nat) (c : Probe), st[k]? = some (c, false) →
    ∃ r, Ev.probeEval k r ∈ tr ∧ c r = ProbeRes.ok := by
  intro fuel
  induction fuel with
  | zero => intro st u round tr h; simp [checkLoop] at h
  | succ fuel ih =>
    intro st u round tr h hcnt k c hk
    cases hc : ctx.cancelled round with
    | true => rw [checkLoop_cancel hc] at h; simp at h
    | false =>
      rcases hrp : runProbes round st 0 u with ⟨rres, evs⟩
      cases rres with
      | error e' => rw [checkLoop_err hc hrp] at h; simp at h
      | ok p =>
        obtain ⟨st', u'⟩ := p
        have hcnt' : countUnsat st' = u' := by
          have := runProbes_count round st 0 u hrp (le_of_eq hcnt)
          omega
        by_cases hu : u' < 1
        · rw [checkLoop_done hc hrp hu] at h
          obtain ⟨-, h2⟩ : (Except.ok () : Except Err Unit) = Except.ok () ∧ evs = tr := by
            simpa using h
          have hz : countUnsat st' = 0 := by omega
          have hst' : st'[k]? = some (c, false || decide (c round = ProbeRes.ok)) := by
            rw [runProbes_map round st 0 u hrp, List.getElem?_map, hk]
            rfl
          have hb := countUnsat_zero_all_sat st' hz k c _ hst'
          have hok : c round = ProbeRes.ok := by simpa using hb
          refine ⟨round, ?_, hok⟩
          rw [← h2]
          have := runProbes_complete round st 0 u hrp k c hk
          simpa using this
        · cases ha : alive (round + 1) pid with
          | false => rw [checkLoop_dead hc hrp hu ha] at h; simp at h
          | true =>
            rw [checkLoop_recur hc hrp hu ha] at h
            rcases hrec : checkLoop ctx alive pid st' u' (round + 1) fuel with - | ⟨res', evs'⟩
            · rw [hrec] at h; simp at h
            · rw [hrec] at h
              obtain ⟨h1, h2⟩ : res' = Except.ok ()
                  ∧ evs ++ [Ev.sleep round, Ev.recheck pid] ++ evs' = tr := by simpa using h
              by_cases hok : c round = ProbeRes.ok
              · refine ⟨round, ?_, hok⟩
                rw [← h2]
                have hm := runProbes_complete round st 0 u hrp k c hk
                have hm' : Ev.probeEval k round ∈ evs := by simpa using hm
                exact List.mem_append_left _ (List.mem_append_left _ hm')
              · have hst' : st'[k]? = some (c, false) := by
                  rw [runProbes_map round st 0 u hrp, List.getElem?_map, hk]
                  simp [hok]
                rw [h1] at hrec
                obtain ⟨r, hmem, hokr⟩ := ih st' u' (round + 1) hrec hcnt' k c hst'
                refine ⟨r, ?_, hokr⟩
                rw [← h2]
                exact List.mem_append_right _ hmem

/-- When the wait loop returns success, the context was not already cancelled
at its entry round. -/
theorem checkLoop_ok_not_cancelled (ctx : Ctx) (alive : Nat → Int → Bool) (pid : Int)
    (fuel : Nat) (st : List (Probe × Bool)) (u round : Nat) {tr : List Ev}
    (h : checkLoop ctx alive pid st u round fuel = some (.ok (), tr)) :
    ctx.cancelled round = false := by
  cases fuel with
  | zero => simp [checkLoop] at h
  | succ fuel =>
    cases hc : ctx.cancelled round with
    | true => rw [checkLoop_cancel hc] at h; simp at h
    | false => rfl

/-- When the wait loop does not return success, either it was entered with an
empty probe state under an already-cancelled context, or some probe that was
unsatisfied on entry never reported success in the trace. -/
theorem checkLoop_fail_unreported (ctx : Ctx) (alive : Nat → Int → Bool) (pid : Int) :
    ∀ (fuel : Nat) (st : List (Probe × Bool)) (u round : Nat) {res : Except Err Unit}
      {tr : List Ev}, checkLoop ctx alive pid st u round fuel = some (res, tr) →
    countUnsat st = u → (st = [] ∨ 1 ≤ u) → res ≠ .ok () →
    (st = [] ∧ ctx.cancelled round = true)
      ∨ ∃ (k : Nat) (c : Probe), st[k]? = some (c, false)
          ∧ ∀ r, Ev.probeEval k r ∈ tr → c r ≠ ProbeRes.ok := by
  intro fuel
  induction fuel with
  | zero => intro st u round res tr h; simp [checkLoop] at h
  | succ fuel ih =>
    intro st u round res tr h hcnt hside hres
    cases hc : ctx.cancelled round with
    | true =>
      rw [checkLoop_cancel hc] at h
      obtain ⟨-, h2⟩ : (Except.error Err.canceled : Except Err Unit) = res ∧ ([] : List Ev) = tr := by
        simpa using h
      rcases hside with hside | hside
      · exact Or.inl ⟨hside, rfl⟩
      · obtain ⟨k, c, hk⟩ := countUnsat_pos_exists (hcnt ▸ hside)
        refine Or.inr ⟨k, c, hk, ?_⟩
        intro r hmem
        rw [← h2] at hmem
        simp at hmem
    | false =>
      rcases hrp : runProbes round st 0 u with ⟨rres, evs⟩
      have evsInfo := runProbes_evs0 round st u hrp
      cases rres with
      | error e' =>
        rw [checkLoop_err hc hrp] at h
        obtain ⟨-, h2⟩ : (Except.error (Err.probeFailed e') : Except Err Unit) = res ∧ evs = tr := by
          simpa using h
        obtain ⟨k, c, hk, hcr⟩ := runProbes_err round st 0 u hrp
        refine Or.inr ⟨k, c, hk, ?_⟩
        intro r hmem hok
        rw [← h2] at hmem
        have hr := (evsInfo k r hmem).1
        rw [hr, hcr] at hok
        simp at hok
      | ok p =>
        obtain ⟨st', u'⟩ := p
        have hcnt' : countUnsat st' = u' := by
          have := runProbes_count round st 0 u hrp (le_of_eq hcnt)
          omega
        by_cases hu : u' < 1
        · rw [checkLoop_done hc hrp hu] at h
          obtain ⟨h1, -⟩ : (Except.ok () : Except Err Unit) = res ∧ evs = tr := by simpa using h
          exact absurd h1.symm hres
        · have hun : 1 ≤ u' := by omega
          have hunsat' : ∃ (k : Nat) (c : Probe), st'[k]? = some (c, false) :=
            countUnsat_pos_exists (hcnt' ▸ hun)
          have backport : ∀ (k : Nat) (c : Probe), st'[k]? = some (c, false) →
              st[k]? = some (c, false) ∧ c round ≠ ProbeRes.ok := by
            intro k c hk'
            rw [runProbes_map round st 0 u hrp, List.getElem?_map] at hk'
            rcases hx : st[k]? with - | ⟨c0, b0⟩
            · rw [hx] at hk'; simp at hk'
            · rw [hx] at hk'
              have hk2 : c0 = c ∧ (b0 || decide (c0 round = ProbeRes.ok)) = false := by
                simpa using hk'
              obtain ⟨hc0, hb0⟩ := hk2
              subst hc0
              have hb1 : b0 = false ∧ decide (c0 round = ProbeRes.ok) = false := by
                simpa using hb0
              refine ⟨by rw [hb1.1], ?_⟩
              intro hok
              rw [hok] at hb1
              simp at hb1
          cases ha : alive (round + 1) pid with
          | false =>
            rw [checkLoop_dead hc hrp hu ha] at h
            obtain ⟨-, h2⟩ : (Except.error (Err.exitedBeforeSatisfied pid) : Except Err Unit) = res
                ∧ evs ++ [Ev.sleep round, Ev.recheck pid] = tr := by simpa using h
            obtain ⟨k, c, hk'⟩ := hunsat'
            obtain ⟨hk, hnok⟩ := backport k c hk'
            refine Or.inr ⟨k, c, hk, ?_⟩
            intro r hmem hok
            rw [← h2] at hmem
            have hmem' : Ev.probeEval k r ∈ evs := by
              rcases List.mem_append.mp hmem with hm | hm
              · exact hm
              · simp at hm
            have hr := (evsInfo k r hmem').1
            rw [hr] at hok
            exact hnok hok
          | true =>
            rw [checkLoop_recur hc hrp hu ha] at h
            rcases hrec : checkLoop ctx alive pid st' u' (round + 1) fuel with - | ⟨res', evs'⟩
            · rw [hrec] at h; simp at h
            · rw [hrec] at h
              obtain ⟨h1, h2⟩ : res' = res
                  ∧ evs ++ [Ev.sleep round, Ev.recheck pid] ++ evs' = tr := by simpa using h
              have hres' : res' ≠ .ok () := by rw [h1]; exact hres
              rcases ih st' u' (round + 1) hrec hcnt' (Or.inr hun) hres' with hcase | hcase
              · obtain ⟨hemp, -⟩ := hcase
                rw [hemp] at hcnt'
                simp [countUnsat] at hcnt'
                omega
              · obtain ⟨k, c, hk', hnever⟩ := hcase
                obtain ⟨hk, hnok⟩ := backport k c hk'
                refine Or.inr ⟨k, c, hk, ?_⟩
                intro r hmem hok
                rw [← h2] at hmem
                rcases List.mem_append.mp hmem with hm | hm
                · rcases List.mem_append.mp hm with hm | hm
                  · have hr := (evsInfo k r hm).1
                    rw [hr] at hok
                    exact hnok hok
                  · simp at hm
                · exact hnever r hm hok

end Svc

namespace Svc

/-- The initial wait-loop state (all probes unsatisfied) has as many
unsatisfied probes as there are probes. -/
theorem initState_count (checks : List Probe) :
    countUnsat (checks.map (fun c => (c, false))) = checks.length := by
  induction checks with
  | nil => rfl
  | cons c rest ih =>
    simp only [List.map_cons, countUnsat, List.countP_cons, List.length_cons] at ih ⊢
    simp only [Bool.not_false, if_true]
    omega

/-- C9: in the wait loop, a probe that reported success is never re-evaluated;
the loop returns success exactly when every configured probe reported success
at least once, except in the degenerate case of an empty probe set under a
context already cancelled at entry (where it aborts with the cancellation
error); and a hard probe error aborts the loop immediately with that error. -/
theorem c9_wait_loop_invariants (cfg : Config) (ctx : Ctx) (alive : Nat → Int → Bool)
    (pid : Int) (fuel : Nat) (res : Except Err Unit) (tr : List Ev)
    (h : checkLoop ctx alive pid (cfg.checks.map (fun c => (c, false)))
        cfg.checks.length 0 fuel = some (res, tr)) :
    (∀ (k : Nat) (c : Probe) (r r' : Nat), cfg.checks[k]? = some c → r < r' →
        Ev.probeEval k r ∈ tr → c r = ProbeRes.ok → Ev.probeEval k r' ∉ tr)
  ∧ (res = .ok () ↔ ((∀ k, k < cfg.checks.length → reportedOk cfg.checks tr k)
        ∧ (cfg.checks = [] → ctx.cancelled 0 = false)))
  ∧ (∀ (st : List (Probe × Bool)) (u round f : Nat) (e : String) (evs : List Ev),
        ctx.cancelled round = false → runProbes round st 0 u = (.error e, evs) →
        checkLoop ctx alive pid st u round (f + 1) = some (.error (.probeFailed e), evs)) := by
  refine ⟨?_, ⟨?_, ?_⟩, ?_⟩
  · intro k c r r' hk hlt hr hok hr'
    have hk0 : (cfg.checks.map (fun c => (c, false)))[k]? = some (c, false) := by
      rw [List.getElem?_map, hk]
      rfl
    exact checkLoop_no_reeval ctx alive pid fuel _ _ 0 h k c false hk0 r r' hlt hr hok hr'
  · intro hres
    rw [hres] at h
    constructor
    · intro k hk
      have hk1 : cfg.checks[k]? = some cfg.checks[k] := List.getElem?_eq_getElem hk
      have hk0 : (cfg.checks.map (fun c => (c, false)))[k]? = some (cfg.checks[k], false) := by
        rw [List.getElem?_map, hk1]
        rfl
      obtain ⟨r, hmem, hok⟩ := checkLoop_ok_reported ctx alive pid fuel _ _ 0 h
        (initState_count cfg.checks) k cfg.checks[k] hk0
      exact ⟨r, cfg.checks[k], hk1, hmem, hok⟩
    · intro hnil
      exact checkLoop_ok_not_cancelled ctx alive pid fuel _ _ 0 h
  · intro ⟨hall, hcorner⟩
    by_contra hne
    have hside : cfg.checks.map (fun c => (c, false)) = [] ∨ 1 ≤ cfg.checks.length := by
      cases hcs : cfg.checks with
      | nil => exact Or.inl rfl
      | cons a l => exact Or.inr (by simp)
    rcases checkLoop_fail_unreported ctx alive pid fuel _ _ 0 h
        (initState_count cfg.checks) hside hne with hcase | hcase
    · obtain ⟨hemp, hcanc⟩ := hcase
      have hnil : cfg.checks = [] := List.map_eq_nil_iff.mp hemp
      rw [hcorner hnil] at hcanc
      simp at hcanc
    · obtain ⟨k, c, hk0, hnever⟩ := hcase
      rw [List.getElem?_map] at hk0
      rcases hx : cfg.checks[k]? with - | c0
      · rw [hx] at hk0; simp at hk0
      · rw [hx] at hk0
        have hc0 : c0 = c := by simpa using hk0
        subst hc0
        have hklt : k < cfg.checks.length := by
          by_contra hge
          rw [List.getElem?_eq_none (by omega)] at hx
          simp at hx
        obtain ⟨r, c', hk', hmem, hok⟩ := hall k hklt
        rw [hx] at hk'
        have hcc : c0 = c' := by simpa using hk'
        exact hnever r hmem (by rw [hcc]; exact hok)
  · intro st u round f e evs hc hrp
    exact checkLoop_err hc hrp alive pid f

/-- C9 counterexample: with an empty configured probe set and a context that
is already cancelled on entry, the wait loop returns the cancellation error —
not success — although every configured probe has (vacuously) reported
success at least once, refuting the unconditional "exactly when". -/
theorem c9_counterexample :
    checkLoop ⟨some 0⟩ (fun _ p => p == (5 : Int)) 5
        (([] : List Probe).map (fun c => (c, false))) ([] : List Probe).length 0 1
      = some (.error .canceled, [])
    ∧ (Except.error Err.canceled : Except Err Unit) ≠ .ok ()
    ∧ (∀ k, k < ([] : List Probe).length → reportedOk [] [] k) := by
  refine ⟨rfl, by simp, ?_⟩
  intro k hk
  simp at hk

end Svc

namespace Svc

/-- The liveness resolver emits at most one event, its zero-signal. -/
theorem getProcessByPID_evs (w : World) (pid rec : Int) :
    (getProcessByPID w pid rec).2 = [] ∨ (getProcessByPID w pid rec).2 = [Ev.signal0 pid] := by
  unfold getProcessByPID
  split
  · exact Or.inl rfl
  · split
    · exact Or.inr rfl
    · exact Or.inr rfl

/-- The identity resolution of `getProcess` emits at most one zero-signal. -/
theorem getProcess_evs (w : World) :
    (getProcess w).2 = [] ∨ ∃ q, (getProcess w).2 = [Ev.signal0 q] := by
  unfold getProcess
  split
  · exact Or.inl rfl
  · rcases getProcessByPID_evs w (getPIDFile w.file).1 (getPIDFile w.file).2 with h | h
    · exact Or.inl h
    · exact Or.inr ⟨_, h⟩

theorem check_none {w : World} {evs : List Ev} (hg : getProcess w = (none, evs))
    (cfg : Config) (ctx : Ctx) (fuel : Nat) :
    check cfg ctx w fuel = some (.error .exitedBeforeChecks, evs) := by
  unfold check
  rw [hg]

theorem check_some {w : World} {hdl : Handle} {evs : List Ev}
    (hg : getProcess w = (some hdl, evs)) (cfg : Config) (ctx : Ctx) (fuel : Nat) :
    check cfg ctx w fuel
      = (match checkLoop ctx w.alive hdl.pid (cfg.checks.map (fun c => (c, false)))
            cfg.checks.length 0 fuel with
         | some (res, evs') => some (res, evs ++ evs')
         | none => none) := by
  unfold check
  rw [hg]

/-- Trace events of `check` are read-only. -/
theorem check_evs_readOnly {cfg : Config} {ctx : Ctx} {w : World} {fuel : Nat}
    {res : Except Err Unit} {tr : List Ev} (h : check cfg ctx w fuel = some (res, tr)) :
    ∀ e ∈ tr, e.readOnly = true := by
  rcases hg : getProcess w with ⟨o, evsR⟩
  have hRO : ∀ e ∈ evsR, Ev.readOnly e = true := by
    intro e he
    rcases getProcess_evs w with hx | ⟨q, hx⟩ <;> rw [hg] at hx <;> simp at hx <;>
      rw [hx] at he
    · simp at he
    · have he' : e = Ev.signal0 q := by simpa using he
      rw [he']; rfl
  cases o with
  | none =>
    rw [check_none hg cfg ctx fuel] at h
    obtain ⟨-, h2⟩ : (Except.error Err.exitedBeforeChecks : Except Err Unit) = res ∧ evsR = tr := by
      simpa using h
    rw [← h2]
    exact hRO
  | some hdl =>
    rw [check_some hg cfg ctx fuel] at h
    rcases hcl : checkLoop ctx w.alive hdl.pid (cfg.checks.map (fun c => (c, false)))
        cfg.checks.length 0 fuel with - | ⟨res', evs'⟩
    · rw [hcl] at h; simp at h
    · rw [hcl] at h
      obtain ⟨-, h2⟩ : res' = res ∧ evsR ++ evs' = tr := by simpa using h
      rw [← h2]
      intro e he
      rcases List.mem_append.mp he with he | he
      · exact hRO e he
      · exact checkLoop_evs_readOnly ctx w.alive hdl.pid fuel _ _ 0 hcl e he

theorem status_pid0 {w : World} (hp : (getPIDFile w.file).1 = 0)
    (cfg : Config) (ctx : Ctx) (fuel : Nat) :
    status cfg ctx w fuel
      = some (w, ⟨cfg.name, (getPIDFile w.file).1, (getPIDFile w.file).2, false, false⟩, []) := by
  unfold status
  rw [if_pos hp]

theorem status_notRunning {w : World} {evs : List Ev} (hp : ¬ (getPIDFile w.file).1 = 0)
    (hres : getProcessByPID w (getPIDFile w.file).1 (getPIDFile w.file).2 = (none, evs))
    (cfg : Config) (ctx : Ctx) (fuel : Nat) :
    status cfg ctx w fuel
      = some (w, ⟨cfg.name, (getPIDFile w.file).1, (getPIDFile w.file).2, false, false⟩, evs) := by
  unfold status
  rw [if_neg hp, hres]

theorem status_running_ok {w : World} {hdl : Handle} {evs evs' : List Ev}
    (hp : ¬ (getPIDFile w.file).1 = 0)
    (hres : getProcessByPID w (getPIDFile w.file).1 (getPIDFile w.file).2 = (some hdl, evs))
    {cfg : Config} {ctx : Ctx} {fuel : Nat}
    (hchk : check cfg ctx w fuel = some (.ok (), evs')) :
    status cfg ctx w fuel
      = some (w, ⟨cfg.name, (getPIDFile w.file).1, (getPIDFile w.file).2, true, true⟩,
          evs ++ evs') := by
  unfold status
  rw [if_neg hp, hres, hchk]

theorem status_running_err {w : World} {hdl : Handle} {evs evs' : List Ev} {e : Err}
    (hp : ¬ (getPIDFile w.file).1 = 0)
    (hres : getProcessByPID w (getPIDFile w.file).1 (getPIDFile w.file).2 = (some hdl, evs))
    {cfg : Config} {ctx : Ctx} {fuel : Nat}
    (hchk : check cfg ctx w fuel = some (.error e, evs')) :
    status cfg ctx w fuel
      = some (w, ⟨cfg.name, (getPIDFile w.file).1, (getPIDFile w.file).2, true, false⟩,
          evs ++ evs') := by
  unfold status
  rw [if_neg hp, hres, hchk]

theorem status_running_none {w : World} {hdl : Handle} {evs : List Ev}
    (hp : ¬ (getPIDFile w.file).1 = 0)
    (hres : getProcessByPID w (getPIDFile w.file).1 (getPIDFile w.file).2 = (some hdl, evs))
    {cfg : Config} {ctx : Ctx} {fuel : Nat}
    (hchk : check cfg ctx w fuel = none) :
    status cfg ctx w fuel = none := by
  unfold status
  rw [if_neg hp, hres, hchk]

end Svc

namespace Svc

/-- The snapshot returned by `status`: the world is returned unchanged, the
snapshot carries the recorded pid and timestamp, `running` reflects the code's
direct `getProcessByPID` resolution (with only the `pid == 0` early return),
probes are evaluated only when running, and `ready` holds exactly when the
`cfg.check` wait loop returns success. -/
theorem status_spec (cfg : Config) (ctx : Ctx) (w : World) (fuel : Nat)
    (w' : World) (snap : Snap) (tr : List Ev)
    (h : status cfg ctx w fuel = some (w', snap, tr)) :
    w' = w
  ∧ snap.name = cfg.name
  ∧ snap.pid = (getPIDFile w.file).1
  ∧ snap.started = (getPIDFile w.file).2
  ∧ (snap.running = true ↔ ((getPIDFile w.file).1 ≠ 0
      ∧ (getProcessByPID w (getPIDFile w.file).1 (getPIDFile w.file).2).1.isSome = true))
  ∧ (snap.running = false → snap.ready = false ∧ ∀ i r, Ev.probeEval i r ∉ tr)
  ∧ (snap.running = true →
      (snap.ready = true ↔ ∃ evs, check cfg ctx w fuel = some (.ok (), evs))) := by
  by_cases hp : (getPIDFile w.file).1 = 0
  · rw [status_pid0 hp cfg ctx fuel] at h
    obtain ⟨h1, h2, h3⟩ : w = w'
        ∧ (⟨cfg.name, (getPIDFile w.file).1, (getPIDFile w.file).2, false, false⟩ : Snap) = snap
        ∧ ([] : List Ev) = tr := by simpa using h
    subst h1; subst h2; subst h3
    refine ⟨rfl, rfl, rfl, rfl, by simp [hp], ?_, ?_⟩
    · intro
      exact ⟨rfl, by simp⟩
    · intro hr
      simp at hr
  · rcases hres : getProcessByPID w (getPIDFile w.file).1 (getPIDFile w.file).2 with ⟨o, evs⟩
    cases o with
    | none =>
      rw [status_notRunning hp hres cfg ctx fuel] at h
      obtain ⟨h1, h2, h3⟩ : w = w'
          ∧ (⟨cfg.name, (getPIDFile w.file).1, (getPIDFile w.file).2, false, false⟩ : Snap) = snap
          ∧ evs = tr := by simpa using h
      subst h1; subst h2; subst h3
      refine ⟨rfl, rfl, rfl, rfl, by simp [hres], ?_, ?_⟩
      · intro
        refine ⟨rfl, ?_⟩
        intro i r hmem
        rcases getProcessByPID_evs w (getPIDFile w.file).1 (getPIDFile w.file).2 with hx | hx <;>
          rw [hres] at hx <;> simp at hx <;> rw [hx] at hmem <;> simp at hmem
      · intro hr
        simp at hr
    | some hdl =>
      rcases hchk : check cfg ctx w fuel with - | ⟨cres, evs'⟩
      · rw [status_running_none hp hres hchk] at h
        simp at h
      · cases cres with
        | ok u =>
          obtain ⟨⟩ := u
          rw [status_running_ok hp hres hchk] at h
          obtain ⟨h1, h2, h3⟩ : w = w'
              ∧ (⟨cfg.name, (getPIDFile w.file).1, (getPIDFile w.file).2, true, true⟩ : Snap) = snap
              ∧ evs ++ evs' = tr := by simpa using h
          subst h1; subst h2; subst h3
          refine ⟨rfl, rfl, rfl, rfl, by simp [hres, hp], ?_, ?_⟩
          · intro hr
            simp at hr
          · intro
            simp only [true_iff]
            exact ⟨evs', rfl⟩
        | error e =>
          rw [status_running_err hp hres hchk] at h
          obtain ⟨h1, h2, h3⟩ : w = w'
              ∧ (⟨cfg.name, (getPIDFile w.file).1, (getPIDFile w.file).2, true, false⟩ : Snap) = snap
              ∧ evs ++ evs' = tr := by simpa using h
          subst h1; subst h2; subst h3
          refine ⟨rfl, rfl, rfl, rfl, by simp [hres, hp], ?_, ?_⟩
          · intro hr
            simp at hr
          · intro
            constructor
            · intro hr
              simp at hr
            · rintro ⟨evs0, hevs0⟩
              simp at hevs0

end Svc

namespace Svc

/-- Iterated `status` calls preserve the pid file. -/
theorem statusIter_file (cfg : Config) (ctx : Ctx) (fuel : Nat) :
    ∀ (n : Nat) (w w'' : World), statusIter cfg ctx fuel n w = some w'' → w''.file = w.file := by
  intro n
  induction n with
  | zero =>
    intro w w'' h
    obtain h' : w = w'' := by simpa [statusIter] using h
    rw [← h']
  | succ n ih =>
    intro w w'' h
    unfold statusIter at h
    rcases hs : status cfg ctx w fuel with - | ⟨w', snap, tr⟩
    · rw [hs] at h; simp at h
    · rw [hs] at h
      have hw := (status_spec cfg ctx w fuel w' snap tr hs).1
      rw [ih w' w'' h, hw]

/-- Trace events of `status` are read-only. -/
theorem status_evs_readOnly {cfg : Config} {ctx : Ctx} {w : World} {fuel : Nat}
    {w' : World} {snap : Snap} {tr : List Ev}
    (h : status cfg ctx w fuel = some (w', snap, tr)) :
    ∀ e ∈ tr, e.readOnly = true := by
  by_cases hp : (getPIDFile w.file).1 = 0
  · rw [status_pid0 hp cfg ctx fuel] at h
    obtain ⟨-, -, h3⟩ : w = w'
        ∧ (⟨cfg.name, (getPIDFile w.file).1, (getPIDFile w.file).2, false, false⟩ : Snap) = snap
        ∧ ([] : List Ev) = tr := by simpa using h
    rw [← h3]
    simp
  · rcases hres : getProcessByPID w (getPIDFile w.file).1 (getPIDFile w.file).2 with ⟨o, evs⟩
    have hevsRO : ∀ e ∈ evs, Ev.readOnly e = true := by
      intro e he
      rcases getProcessByPID_evs w (getPIDFile w.file).1 (getPIDFile w.file).2 with hx | hx <;>
        rw [hres] at hx <;> simp at hx <;> rw [hx] at he
      · simp at he
      · have he' : e = Ev.signal0 (getPIDFile w.file).1 := by simpa using he
        rw [he']; rfl
    cases o with
    | none =>
      rw [status_notRunning hp hres cfg ctx fuel] at h
      obtain ⟨-, -, h3⟩ : w = w'
          ∧ (⟨cfg.name, (getPIDFile w.file).1, (getPIDFile w.file).2, false, false⟩ : Snap) = snap
          ∧ evs = tr := by simpa using h
      rw [← h3]
      exact hevsRO
    | some hdl =>
      rcases hchk : check cfg ctx w fuel with - | ⟨cres, evs'⟩
      · rw [status_running_none hp hres hchk] at h
        simp at h
      · have hevsRO' : ∀ e ∈ evs', Ev.readOnly e = true := check_evs_readOnly hchk
        cases cres with
        | ok u =>
          obtain ⟨⟩ := u
          rw [status_running_ok hp hres hchk] at h
          obtain ⟨-, -, h3⟩ : w = w'
              ∧ (⟨cfg.name, (getPIDFile w.file).1, (getPIDFile w.file).2, true, true⟩ : Snap) = snap
              ∧ evs ++ evs' = tr := by simpa using h
          rw [← h3]
          intro e he
          rcases List.mem_append.mp he with he | he
          · exact hevsRO e he
          · exact hevsRO' e he
        | error e0 =>
          rw [status_running_err hp hres hchk] at h
          obtain ⟨-, -, h3⟩ : w = w'
              ∧ (⟨cfg.name, (getPIDFile w.file).1, (getPIDFile w.file).2, true, false⟩ : Snap) = snap
              ∧ evs ++ evs' = tr := by simpa using h
          rw [← h3]
          intro e he
          rcases List.mem_append.mp he with he | he
          · exact hevsRO e he
          · exact hevsRO' e he

/-- C7: for every configuration, context, world and fuel, a `status` call
returns the world with the pid file unchanged and a trace containing no pid
file write or removal, and iterating `status` any number of times leaves the
pid file identical. -/
theorem c7_status_never_mutates (cfg : Config) (ctx : Ctx) (w : World) (fuel : Nat)
    (w' : World) (snap : Snap) (tr : List Ev)
    (h : status cfg ctx w fuel = some (w', snap, tr)) :
    w'.file = w.file
  ∧ (∀ p, Ev.writeFile p ∉ tr)
  ∧ Ev.removeFile ∉ tr
  ∧ (∀ n w'', statusIter cfg ctx fuel n w = some w'' → w''.file = w.file) := by
  refine ⟨?_, ?_, ?_, ?_⟩
  · rw [(status_spec cfg ctx w fuel w' snap tr h).1]
  · intro p hmem
    have := status_evs_readOnly h (Ev.writeFile p) hmem
    simp [Ev.readOnly] at this
  · intro hmem
    have := status_evs_readOnly h Ev.removeFile hmem
    simp [Ev.readOnly] at this
  · exact fun n w'' hn => statusIter_file cfg ctx fuel n w w'' hn

/-- C7 witness: a concrete status call over a running service. -/
theorem c7_witness :
    (status cfgC7 ⟨none⟩ wC7 2
      = some (wC7, ⟨"svc", 5, 0, true, true⟩, [Ev.signal0 5, Ev.signal0 5, Ev.probeEval 0 0]))
    ∧ wC7.file = wC7.file
    ∧ (∀ p, Ev.writeFile p ∉ [Ev.signal0 5, Ev.signal0 5, Ev.probeEval 0 0])
    ∧ Ev.removeFile ∉ [Ev.signal0 5, Ev.signal0 5, Ev.probeEval 0 0]
    ∧ (∀ n w'', statusIter cfgC7 ⟨none⟩ 2 n wC7 = some w'' → w''.file = wC7.file) :=
  ⟨rfl, c7_status_never_mutates cfgC7 ⟨none⟩ wC7 2 wC7 ⟨"svc", 5, 0, true, true⟩
    [Ev.signal0 5, Ev.signal0 5, Ev.probeEval 0 0] rfl⟩

end Svc

namespace Svc

/-- C3 (amended): `status` resolves identity and determines `running` from the
liveness resolution, and — only if running — determines `ready` by running the
full `cfg.check` wait loop (the same polling loop `start` uses), which may
sleep between rounds and re-evaluate unsatisfied probes; `ready` is true
exactly when that loop returns success. -/
theorem c3_status_runs_wait_loop (cfg : Config) (ctx : Ctx) (w : World) (fuel : Nat)
    (w' : World) (snap : Snap) (tr : List Ev)
    (h : status cfg ctx w fuel = some (w', snap, tr)) :
    snap.pid = (getPIDFile w.file).1
  ∧ snap.started = (getPIDFile w.file).2
  ∧ (snap.running = true ↔ ((getPIDFile w.file).1 ≠ 0
      ∧ (getProcessByPID w (getPIDFile w.file).1 (getPIDFile w.file).2).1.isSome = true))
  ∧ (snap.running = false → snap.ready = false ∧ ∀ i r, Ev.probeEval i r ∉ tr)
  ∧ (snap.running = true →
      (snap.ready = true ↔ ∃ evs, check cfg ctx w fuel = some (.ok (), evs))) := by
  obtain ⟨-, -, h3, h4, h5, h6, h7⟩ := status_spec cfg ctx w fuel w' snap tr h
  exact ⟨h3, h4, h5, h6, h7⟩

/-- C3 counterexample: a status call over a running service whose single probe
is not ready in the first poll round evaluates that probe twice (at rounds 0
and 1) and sleeps between the rounds, refuting "evaluates every configured
readiness probe exactly once (not polled)" and "never sleeps between probe
rounds or re-evaluates a probe within one status call". -/
theorem c3_counterexample :
    status cfgC3 ⟨none⟩ wC3 3
      = some (wC3, ⟨"svc", 5, 0, true, true⟩,
          [Ev.signal0 5, Ev.signal0 5, Ev.probeEval 0 0, Ev.sleep 0, Ev.recheck 5,
            Ev.probeEval 0 1])
    ∧ ([Ev.signal0 5, Ev.signal0 5, Ev.probeEval 0 0, Ev.sleep 0, Ev.recheck 5,
          Ev.probeEval 0 1].countP (fun e => match e with
            | Ev.probeEval 0 _ => true
            | _ => false) = 2)
    ∧ Ev.sleep 0 ∈ [Ev.signal0 5, Ev.signal0 5, Ev.probeEval 0 0, Ev.sleep 0, Ev.recheck 5,
        Ev.probeEval 0 1] :=
  ⟨rfl, by decide, by decide⟩

/-- C3 witness: the amended statement evaluated on a concrete running
service. -/
theorem c3_witness :
    (status cfgC3 ⟨none⟩ wC3 3
      = some (wC3, ⟨"svc", 5, 0, true, true⟩,
          [Ev.signal0 5, Ev.signal0 5, Ev.probeEval 0 0, Ev.sleep 0, Ev.recheck 5,
            Ev.probeEval 0 1]))
    ∧ ((⟨"svc", 5, 0, true, true⟩ : Snap).pid = (getPIDFile wC3.file).1
      ∧ (⟨"svc", 5, 0, true, true⟩ : Snap).started = (getPIDFile wC3.file).2
      ∧ ((⟨"svc", 5, 0, true, true⟩ : Snap).running = true ↔ ((getPIDFile wC3.file).1 ≠ 0
          ∧ (getProcessByPID wC3 (getPIDFile wC3.file).1 (getPIDFile wC3.file).2).1.isSome = true))
      ∧ ((⟨"svc", 5, 0, true, true⟩ : Snap).running = false →
          (⟨"svc", 5, 0, true, true⟩ : Snap).ready = false
          ∧ ∀ i r, Ev.probeEval i r ∉ [Ev.signal0 5, Ev.signal0 5, Ev.probeEval 0 0, Ev.sleep 0,
              Ev.recheck 5, Ev.probeEval 0 1])
      ∧ ((⟨"svc", 5, 0, true, true⟩ : Snap).running = true →
          ((⟨"svc", 5, 0, true, true⟩ : Snap).ready = true
            ↔ ∃ evs, check cfgC3 ⟨none⟩ wC3 3 = some (.ok (), evs)))) :=
  ⟨rfl, c3_status_runs_wait_loop cfgC3 ⟨none⟩ wC3 3 wC3 ⟨"svc", 5, 0, true, true⟩
    [Ev.signal0 5, Ev.signal0 5, Ev.probeEval 0 0, Ev.sleep 0, Ev.recheck 5, Ev.probeEval 0 1]
    rfl⟩

/-- C5 (amended): in every wait-loop iteration that leaves probes unsatisfied
(and is neither cancelled nor aborted by a hard probe error), the loop first
sleeps and then re-verifies with a zero-signal that the target process is
still alive; if the process has exited by then, the wait aborts with the
"process exited before checks were satisfied" error naming that pid. -/
theorem c5_recheck_after_sleep (ctx : Ctx) (alive : Nat → Int → Bool) (pid : Int)
    (st st' : List (Probe × Bool)) (u u' round fuel : Nat) (evs : List Ev)
    (hc : ctx.cancelled round = false)
    (hrp : runProbes round st 0 u = (.ok (st', u'), evs))
    (hu : 1 ≤ u') :
    (alive (round + 1) pid = false →
      checkLoop ctx alive pid st u round (fuel + 1)
        = some (.error (.exitedBeforeSatisfied pid), evs ++ [Ev.sleep round, Ev.recheck pid]))
  ∧ (∀ res tr, checkLoop ctx alive pid st u round (fuel + 1) = some (res, tr) →
      ∃ rest, tr = evs ++ [Ev.sleep round, Ev.recheck pid] ++ rest) := by
  have hu' : ¬ u' < 1 := by omega
  constructor
  · intro ha
    exact checkLoop_dead hc hrp hu' ha fuel
  · intro res tr h
    cases ha : alive (round + 1) pid with
    | false =>
      rw [checkLoop_dead hc hrp hu' ha] at h
      obtain ⟨-, h2⟩ : (Except.error (Err.exitedBeforeSatisfied pid) : Except Err Unit) = res
          ∧ evs ++ [Ev.sleep round, Ev.recheck pid] = tr := by simpa using h
      exact ⟨[], by rw [← h2]; simp⟩
    | true =>
      rw [checkLoop_recur hc hrp hu' ha] at h
      rcases hrec : checkLoop ctx alive pid st' u' (round + 1) fuel with - | ⟨res', evs'⟩
      · rw [hrec] at h; simp at h
      · rw [hrec] at h
        obtain ⟨-, h2⟩ : res' = res ∧ evs ++ [Ev.sleep round, Ev.recheck pid] ++ evs' = tr := by
          simpa using h
        exact ⟨evs', h2.symm⟩

/-- C5 counterexample: in a concrete run whose first iteration leaves its
probe unsatisfied, no aliveness re-verification happens before the sleep —
every event before the round's sleep is the entry resolution or a probe
evaluation — refuting "re-verifies ... before sleeping"; the zero-signal
recheck is present but strictly after the sleep. -/
theorem c5_counterexample :
    check cfgC5 ⟨none⟩ wC5 3
      = some (.ok (), [Ev.signal0 5, Ev.probeEval 0 0, Ev.sleep 0, Ev.recheck 5, Ev.probeEval 0 1])
    ∧ Ev.recheck 5 ∈ [Ev.signal0 5, Ev.probeEval 0 0, Ev.sleep 0, Ev.recheck 5, Ev.probeEval 0 1]
    ∧ Ev.recheck 5 ∉ ([Ev.signal0 5, Ev.probeEval 0 0, Ev.sleep 0, Ev.recheck 5,
        Ev.probeEval 0 1].takeWhile (fun e => !(decide (e = Ev.sleep 0)))) :=
  ⟨rfl, by decide, by decide⟩

/-- C5 witness: the amended statement evaluated on a concrete iteration whose
process exits during the sleep. -/
theorem c5_witness :
    (Ctx.cancelled ⟨none⟩ 0 = false)
    ∧ (runProbes 0 [(probeC5, false)] 0 1 = (.ok ([(probeC5, false)], 1), [Ev.probeEval 0 0]))
    ∧ (1 ≤ 1)
    ∧ ((aliveC5 (0 + 1) 5 = false →
        checkLoop ⟨none⟩ aliveC5 5 [(probeC5, false)] 1 0 (0 + 1)
          = some (.error (.exitedBeforeSatisfied 5),
              [Ev.probeEval 0 0] ++ [Ev.sleep 0, Ev.recheck 5]))
      ∧ (∀ res tr, checkLoop ⟨none⟩ aliveC5 5 [(probeC5, false)] 1 0 (0 + 1) = some (res, tr) →
          ∃ rest, tr = [Ev.probeEval 0 0] ++ [Ev.sleep 0, Ev.recheck 5] ++ rest)) :=
  ⟨rfl, rfl, by omega,
    c5_recheck_after_sleep ⟨none⟩ aliveC5 5 [(probeC5, false)] [(probeC5, false)] 1 1 0 0
      [Ev.probeEval 0 0] rfl rfl (by omega)⟩

/-- C9 witness: the wait-loop invariants evaluated on a concrete run whose
probe succeeds in its second round. -/
theorem c9_witness :
    (checkLoop ⟨none⟩ (fun _ p => p == (5 : Int)) 5 (checksC9.map (fun c => (c, false)))
        checksC9.length 0 3 = some (.ok (), trC9))
    ∧ ((∀ (k : Nat) (c : Probe) (r r' : Nat), checksC9[k]? = some c → r < r' →
          Ev.probeEval k r ∈ trC9 → c r = ProbeRes.ok → Ev.probeEval k r' ∉ trC9)
      ∧ ((Except.ok () : Except Err Unit) = .ok ()
          ↔ ((∀ k, k < checksC9.length → reportedOk checksC9 trC9 k)
            ∧ (checksC9 = [] → Ctx.cancelled ⟨none⟩ 0 = false)))
      ∧ (∀ (st : List (Probe × Bool)) (u round f : Nat) (e : String) (evs : List Ev),
          Ctx.cancelled ⟨none⟩ round = false → runProbes round st 0 u = (.error e, evs) →
          checkLoop ⟨none⟩ (fun _ p => p == (5 : Int)) 5 st u round (f + 1)
            = some (.error (.probeFailed e), evs))) :=
  ⟨rfl, c9_wait_loop_invariants ⟨"svc", checksC9⟩ ⟨none⟩ (fun _ p => p == (5 : Int)) 5 3
    (.ok ()) trC9 rfl⟩

end Svc

namespace Svc

/-- C1 failing input: over `wC1` (no record, pid 9 available), `start` with
the always-hard-failing probe launches pid 9, persists it, releases the
handle, and the wait loop fails; the rollback `cfg.kill(cmd.Process)` then
runs on the released handle, so `Kill` fails ("os: process already released")
and is discarded.  `start` propagates the probe failure, but pid 9 is still
alive and the persisted record still resolves to running — not the promised
all-or-nothing rollback. -/
theorem c1_rollback_kill_is_noop :
    start cfgC1 ⟨none⟩ wC1 (some 9) true 2
      = some (w1C1, .error (.probeFailed "bad address"),
          [Ev.launch 9, Ev.writeFile 9, Ev.signal0 9, Ev.probeEval 0 0])
    ∧ w1C1.alive 0 9 = true
    ∧ running w1C1 = true
    ∧ w1C1.file = FileView.content 0 "9"
    ∧ kill w1C1 ⟨9, true⟩ = (w1C1, .error .killFailed, []) :=
  ⟨rfl, rfl, rfl, rfl, rfl⟩

/-- C2 failing input: a record holding pid 1 whose zero-signal delivery
succeeds (as for a root caller).  `config.Status` bypasses the `pid < 2` guard
of `config.getProcess`: it delivers signal 0 to pid 1 and reports the service
as `running`, while `getProcess` (used by start and stop) refuses without
signalling, and `stop` merely removes the stale file. -/
theorem c2_status_signals_pid_one :
    status cfgC2 ⟨none⟩ wC2 1
      = some (wC2, ⟨"svc", 1, 0, true, false⟩, [Ev.signal0 1])
    ∧ getProcess wC2 = (none, [])
    ∧ stop wC2 = ({ wC2 with file := FileView.missing }, .ok (), [Ev.removeFile]) :=
  ⟨rfl, rfl, rfl⟩

/-- C4 counterexample: a pid file with unparsable content and modification
time 7 reads back as `(0, 7)` — pid 0, but the file's modification time, not
the zero timestamp the claim asserts. -/
theorem c4_counterexample :
    getPIDFile (.content 7 "bogus") = (0, 7)
    ∧ getPIDFile (.content 7 "bogus") ≠ ((0 : Int), (0 : Int)) :=
  ⟨rfl, by decide⟩

/-- C4 (amended): the identity-store read always yields pid 0 on any failure
and never propagates an error (its result type has no error channel); the
timestamp is zero when opening or statting fails, but is the file's
modification time when reading or parsing fails after a successful stat; and
`status` over a malformed identity file reports pid 0 and running = false
rather than an error. -/
theorem c4_read_downgrades_failures (m : Int) (s : String) (cfg : Config) (ctx : Ctx)
    (w : World) (fuel : Nat) (hs : parseAtoi s = none) (hw : w.file = .content m s) :
    getPIDFile .missing = (0, 0)
  ∧ getPIDFile .unopenable = (0, 0)
  ∧ getPIDFile .unstatable = (0, 0)
  ∧ getPIDFile (.unreadable m) = (0, m)
  ∧ getPIDFile (.content m s) = (0, m)
  ∧ status cfg ctx w fuel = some (w, ⟨cfg.name, 0, m, false, false⟩, []) := by
  have hg : getPIDFile (FileView.content m s) = (0, m) := by
    simp only [getPIDFile, hs]
  have hp : (getPIDFile w.file).1 = 0 := by rw [hw, hg]
  refine ⟨rfl, rfl, rfl, rfl, hg, ?_⟩
  rw [status_pid0 hp cfg ctx fuel, hw, hg]

/-- C4 witness: the amended statement evaluated on a concrete malformed pid
file. -/
theorem c4_witness :
    parseAtoi "bogus" = none
    ∧ wC4.file = FileView.content 7 "bogus"
    ∧ (getPIDFile .missing = ((0 : Int), (0 : Int))
      ∧ getPIDFile .unopenable = ((0 : Int), (0 : Int))
      ∧ getPIDFile .unstatable = ((0 : Int), (0 : Int))
      ∧ getPIDFile (.unreadable 7) = ((0 : Int), (7 : Int))
      ∧ getPIDFile (.content 7 "bogus") = ((0 : Int), (7 : Int))
      ∧ status cfgC4 ⟨none⟩ wC4 1 = some (wC4, ⟨cfgC4.name, 0, 7, false, false⟩, [])) :=
  ⟨rfl, rfl, c4_read_downgrades_failures 7 "bogus" cfgC4 ⟨none⟩ wC4 1 rfl rfl⟩

/-- C8: for a recorded pid of at least 2 whose record age exceeds the cached
system uptime, liveness resolution reports "not running" and sends no signal,
even though a live process with that pid exists.  (The once-queried,
run-lifetime uptime cache is the single `World.uptime` field.) -/
theorem c8_reboot_boundary (w : World) (pid rec up : Int)
    (hpid : 2 ≤ pid) (hup : w.uptime = some up) (helapsed : w.now - rec > up)
    (halive : w.alive 0 pid = true) :
    getProcessByPID w pid rec = (none, []) ∧ Ev.signal0 pid ∉ ([] : List Ev) := by
  have hreb : rebootedSince w rec = true := by
    unfold rebootedSince
    rw [hup]
    simpa using helapsed
  constructor
  · unfold getProcessByPID
    rw [hreb]
    simp
  · simp

/-- C8 witness: a record 100 seconds old on a system up for only 5 seconds
does not resolve, although pid 9 is alive. -/
theorem c8_witness :
    ((2 : Int) ≤ 9) ∧ wC8.uptime = some 5 ∧ (wC8.now - 0 > 5) ∧ wC8.alive 0 9 = true
    ∧ (getProcessByPID wC8 9 0 = (none, []) ∧ Ev.signal0 9 ∉ ([] : List Ev)) :=
  ⟨by decide, rfl, by decide, rfl, c8_reboot_boundary wC8 9 0 5 (by decide) rfl (by decide) rfl⟩

/-- C10: when the cached uptime query failed, liveness resolution skips the
reboot test entirely — for any record age — and decides by the zero-signal
alone, so a pre-reboot record whose pid was reused by a live process resolves
to that unrelated process; the resolver's result type has no error channel,
so the uptime failure is never surfaced to a caller. -/
theorem c10_uptime_failure_ignored (w : World) (pid rec : Int) (hup : w.uptime = none) :
    getProcessByPID w pid rec
      = (if w.alive 0 pid then (some ⟨pid, false⟩, [Ev.signal0 pid])
         else (none, [Ev.signal0 pid]))
  ∧ (w.alive 0 pid = true → (getProcessByPID w pid rec).1 = some ⟨pid, false⟩) := by
  have hreb : rebootedSince w rec = false := by
    unfold rebootedSince
    rw [hup]
  have heq : getProcessByPID w pid rec
      = (if w.alive 0 pid then (some ⟨pid, false⟩, [Ev.signal0 pid])
         else (none, [Ev.signal0 pid])) := by
    unfold getProcessByPID
    rw [hreb]
    simp
  refine ⟨heq, ?_⟩
  intro ha
  rw [heq, if_pos ha]

/-- C10 witness: an ancient record (age 1000000 over any uptime) with a
failing uptime query still resolves to the live pid 7. -/
theorem c10_witness :
    wC10.uptime = none
    ∧ ((getProcessByPID wC10 7 0
        = (if wC10.alive 0 7 then (some ⟨7, false⟩, [Ev.signal0 7])
           else (none, [Ev.signal0 7])))
      ∧ (wC10.alive 0 7 = true → (getProcessByPID wC10 7 0).1 = some ⟨7, false⟩)) :=
  ⟨rfl, c10_uptime_failure_ignored wC10 7 0 rfl⟩

end Svc


namespace Svc

theorem start_already_running {w : World} {hdl : Handle} {evsR : List Ev}
    (hg : getProcess w = (some hdl, evsR)) (cfg : Config) (ctx : Ctx) (lp : Option Int)
    (wok : Bool) (fuel : Nat) :
    start cfg ctx w lp wok fuel
      = (match check cfg ctx w fuel with
         | some (res, evs) => some (w, res, evsR ++ evs)
         | none => none) := by
  unfold start
  rw [hg]

theorem start_not_running {w : World} {evsR : List Ev}
    (hg : getProcess w = (none, evsR)) (cfg : Config) (ctx : Ctx) (lp : Option Int)
    (wok : Bool) (fuel : Nat) :
    start cfg ctx w lp wok fuel = startLaunch cfg ctx w evsR lp wok fuel := by
  unfold start
  rw [hg]

/-- A `start` call that returns success leaves a world on which the identity
resolves to a running process. -/
theorem start_ok_running {cfg : Config} {ctx : Ctx} {w : World} {lp : Option Int} {wok : Bool}
    {fuel : Nat} {w1 : World} {tr1 : List Ev}
    (h : start cfg ctx w lp wok fuel = some (w1, .ok (), tr1)) : running w1 = true := by
  rcases hg : getProcess w with ⟨o, evsR⟩
  cases o with
  | some hdl =>
    rw [start_already_running hg cfg ctx lp wok fuel] at h
    rcases hchk : check cfg ctx w fuel with - | ⟨res, evs⟩ <;> rw [hchk] at h
    · simp at h
    · obtain ⟨h1, -, -⟩ : w = w1 ∧ res = Except.ok () ∧ evsR ++ evs = tr1 := by simpa using h
      unfold running
      rw [← h1, hg]
      rfl
  | none =>
    rw [start_not_running hg cfg ctx lp wok fuel] at h
    cases lp with
    | none => simp [startLaunch] at h
    | some pid =>
      cases wok with
      | false =>
        rcases hk : kill w ⟨pid, false⟩ with ⟨w2, kr, evs2⟩
        simp only [startLaunch, hk] at h
        simp at h
      | true =>
        rcases hchk : check cfg ctx { w with file := .content w.now (toString pid) } fuel
          with - | ⟨res, evs⟩
        · simp only [startLaunch, hchk] at h
          simp at h
        · cases res with
          | error e =>
            rcases hk : kill { w with file := .content w.now (toString pid) } ⟨pid, true⟩
              with ⟨w2, kr, evs2⟩
            simp only [startLaunch, hchk, hk] at h
            simp at h
          | ok u =>
            obtain ⟨⟩ := u
            simp only [startLaunch, hchk] at h
            obtain ⟨h1, -⟩ : { w with file := .content w.now (toString pid) } = w1
                ∧ evsR ++ [Ev.launch pid, Ev.writeFile pid] ++ evs = tr1 := by simpa using h
            rcases hg2 : getProcess { w with file := .content w.now (toString pid) }
              with ⟨o2, evs2⟩
            cases o2 with
            | none =>
              rw [check_none hg2 cfg ctx fuel] at hchk
              simp at hchk
            | some hdl2 =>
              unfold running
              rw [← h1, hg2]
              rfl

end Svc

namespace Svc

/-- Over a world where the identity resolves to a running process,
`statusReady` is true exactly when the `cfg.check` wait loop returns
success. -/
theorem statusReady_of_running {cfg : Config} {ctx : Ctx} {w : World} {fuel : Nat}
    (hrun : running w = true) :
    (statusReady cfg ctx w fuel = true ↔ ∃ evs, check cfg ctx w fuel = some (.ok (), evs)) := by
  unfold running at hrun
  rcases hg : getProcess w with ⟨o, evsR⟩
  rw [hg] at hrun
  cases o with
  | none => simp at hrun
  | some hdl =>
    unfold getProcess at hg
    by_cases hlt : (getPIDFile w.file).1 < 2
    · rw [if_pos hlt] at hg
      simp at hg
    · rw [if_neg hlt] at hg
      have hp : ¬ (getPIDFile w.file).1 = 0 := by
        intro h0
        exact hlt (by rw [h0]; norm_num)
      rcases hchk : check cfg ctx w fuel with - | ⟨cres, evs'⟩
      · unfold statusReady
        rw [status_running_none hp hg hchk]
        simp
      · cases cres with
        | ok u =>
          obtain ⟨⟩ := u
          unfold statusReady
          rw [status_running_ok hp hg hchk]
          simp
        | error e =>
          unfold statusReady
          rw [status_running_err hp hg hchk]
          constructor
          · intro hfalse
            simp at hfalse
          · rintro ⟨evs0, h0⟩
            simp at h0

/-- C6: when a `start` succeeds and a second `start` follows without an
intervening stop, the second call launches nothing, writes nothing, and leaves
the world (in particular the persisted pid file) unchanged, and it returns
success exactly when `status` would report the service ready (it re-validates
readiness through the same wait loop). -/
theorem c6_start_idempotent (cfg : Config) (ctx : Ctx) (w w1 w2 : World)
    (lp lp' : Option Int) (wok wok' : Bool) (fuel : Nat)
    (tr1 tr2 : List Ev) (res2 : Except Err Unit)
    (h1 : start cfg ctx w lp wok fuel = some (w1, .ok (), tr1))
    (h2 : start cfg ctx w1 lp' wok' fuel = some (w2, res2, tr2)) :
    w2 = w1
  ∧ (∀ p, Ev.launch p ∉ tr2)
  ∧ (∀ p, Ev.writeFile p ∉ tr2)
  ∧ (res2 = .ok () ↔ statusReady cfg ctx w1 fuel = true) := by
  have hrun := start_ok_running h1
  have hrun' := hrun
  unfold running at hrun'
  rcases hg : getProcess w1 with ⟨o, evsR⟩
  rw [hg] at hrun'
  cases o with
  | none => simp at hrun'
  | some hdl =>
    rw [start_already_running hg cfg ctx lp' wok' fuel] at h2
    rcases hchk : check cfg ctx w1 fuel with - | ⟨res, evs⟩ <;> rw [hchk] at h2
    · simp at h2
    · obtain ⟨hw, hres, htr⟩ : w1 = w2 ∧ res = res2 ∧ evsR ++ evs = tr2 := by simpa using h2
      have hRO : ∀ e ∈ tr2, Ev.readOnly e = true := by
        intro e he
        rw [← htr] at he
        rcases List.mem_append.mp he with he | he
        · rcases getProcess_evs w1 with hx | ⟨q, hx⟩ <;> rw [hg] at hx <;> simp at hx <;>
            rw [hx] at he
          · simp at he
          · have he' : e = Ev.signal0 q := by simpa using he
            rw [he']; rfl
        · exact check_evs_readOnly hchk e he
      refine ⟨hw.symm, ?_, ?_, ?_⟩
      · intro p hmem
        have := hRO (Ev.launch p) hmem
        simp [Ev.readOnly] at this
      · intro p hmem
        have := hRO (Ev.writeFile p) hmem
        simp [Ev.readOnly] at this
      · rw [statusReady_of_running hrun]
        constructor
        · intro hok
          exact ⟨evs, by rw [hchk, hres, hok]⟩
        · rintro ⟨evs0, h0⟩
          rw [hchk] at h0
          obtain ⟨ho, -⟩ : res = Except.ok () ∧ evs = evs0 := by simpa using h0
          rw [← hres]
          exact ho

end Svc

namespace Svc

/-- C6 witness: two consecutive concrete `start` calls; the first launches and
persists pid 5, the second only re-validates readiness. -/
theorem c6_witness :
    (start cfgC6 ⟨none⟩ wC6 (some 5) true 2
      = some (w1C6, .ok (), [Ev.launch 5, Ev.writeFile 5, Ev.signal0 5, Ev.probeEval 0 0]))
    ∧ (start cfgC6 ⟨none⟩ w1C6 (some 7) true 2
      = some (w1C6, .ok (), [Ev.signal0 5, Ev.signal0 5, Ev.probeEval 0 0]))
    ∧ (w1C6 = w1C6
      ∧ (∀ p, Ev.launch p ∉ [Ev.signal0 5, Ev.signal0 5, Ev.probeEval 0 0])
      ∧ (∀ p, Ev.writeFile p ∉ [Ev.signal0 5, Ev.signal0 5, Ev.probeEval 0 0])
      ∧ ((Except.ok () : Except Err Unit) = .ok ()
          ↔ statusReady cfgC6 ⟨none⟩ w1C6 2 = true)) :=
  ⟨rfl, rfl,
    c6_start_idempotent cfgC6 ⟨none⟩ wC6 w1C6 w1C6 (some 5) (some 7) true true 2
      [Ev.launch 5, Ev.writeFile 5, Ev.signal0 5, Ev.probeEval 0 0]
      [Ev.signal0 5, Ev.signal0 5, Ev.probeEval 0 0] (.ok ()) rfl rfl⟩

end Svc
